import Mathlib

/-!
Verification development for the CNXML → PreTeXt conversion scripts
(`convert_ch06.py`, `convert_ch06_full.py`, `convert_ch09_full.py`,
`convert_ch11.py`, `convert_appendices.py`).

The scripts walk `xml.etree.ElementTree` element trees.  We embed such
trees shallowly: an element has a (namespace-qualified) tag, an ordered
attribute list, leading text, an ordered child list, and tail text.
`None` text/tail values of ElementTree are identified with `""`, which is
sound here because every script accesses text through Python truthiness
(`if elem.text:`) under which `None` and `""` coincide.

Python string primitives used by the scripts (`str.strip`, `str.replace`,
`'x' in s`, `str.join`, `str.split('}')[-1]`, `int`, `str.isdigit`) are
modelled by executable functions on `List Char` below, with the same
left-to-right non-overlapping semantics as CPython.
-/

/-- An `xml.etree.ElementTree.Element`: tag, attributes, leading text,
children, and tail text (text following the element inside its parent). -/
inductive Elem where
  | mk (tag : String) (attrs : List (String × String)) (text : String)
       (children : List Elem) (tail : String)

/-- `elem.tag`. -/
def Elem.tag : Elem → String
  | .mk t _ _ _ _ => t

/-- `elem.attrib` as an ordered association list. -/
def Elem.attrs : Elem → List (String × String)
  | .mk _ a _ _ _ => a

/-- `elem.text` (with `None` read as `""`). -/
def Elem.text : Elem → String
  | .mk _ _ tx _ _ => tx

/-- `list(elem)`: the ordered children. -/
def Elem.children : Elem → List Elem
  | .mk _ _ _ ch _ => ch

/-- `elem.tail` (with `None` read as `""`). -/
def Elem.tail : Elem → String
  | .mk _ _ _ _ tl => tl

/-- `elem.get(key, default)`. -/
def Elem.get (e : Elem) (key default : String) : String :=
  match e.attrs.lookup key with
  | some v => v
  | none => default

mutual
/-- Structural equality of elements, standing in for the CPython object
identity tests (`child == table`) in the scripts; the claims below only
exercise it where the two coincide. -/
def beqE : Elem → Elem → Bool
  | .mk t a x ch tl, .mk t' a' x' ch' tl' =>
      t == t' && a == a' && x == x' && beqL ch ch' && tl == tl'
/-- Structural equality on child lists. -/
def beqL : List Elem → List Elem → Bool
  | [], [] => true
  | c :: r, c' :: r' => beqE c c' && beqL r r'
  | _, _ => false
end

instance : BEq Elem := ⟨beqE⟩

mutual
theorem beqE_refl : ∀ e : Elem, beqE e e = true
  | .mk t a x ch tl => by
      simp only [beqE, beq_self_eq_true, Bool.and_true, Bool.true_and]
      exact beqL_refl ch
theorem beqL_refl : ∀ l : List Elem, beqL l l = true
  | [] => rfl
  | c :: r => by
      simp only [beqL, Bool.and_eq_true]
      exact ⟨beqE_refl c, beqL_refl r⟩
end

theorem beq_elem_self (e : Elem) : (e == e) = true := beqE_refl e

/-- Characters treated as whitespace by Python's `str.strip()` (the
ASCII ones; the scripts never see the exotic Unicode space classes). -/
def isPySpace (c : Char) : Bool :=
  c == ' ' || c == '\t' || c == '\n' || c == '\r' || c == '\x0b' || c == '\x0c'

/-- Python `s.strip()`. -/
def pyStrip (s : String) : String :=
  String.mk (((s.toList.dropWhile isPySpace).reverse.dropWhile isPySpace).reverse)

/-- One left-to-right scan of Python `str.replace`: at each position, if
`old` is a prefix we emit `new` and skip `old.length` characters
(`skip` counts characters still to be skipped); otherwise we copy one
character. -/
def replaceGo (old new : List Char) : List Char → Nat → List Char
  | [], _ => []
  | _ :: rest, skip + 1 => replaceGo old new rest skip
  | c :: rest, 0 =>
      if old.isPrefixOf (c :: rest) then
        new ++ replaceGo old new rest (old.length - 1)
      else
        c :: replaceGo old new rest 0

/-- Python `s.replace(old, new)` for nonempty `old` (the scripts never
replace the empty string). -/
def pyReplace (s old new : String) : String :=
  if old = "" then s else String.mk (replaceGo old.toList new.toList s.toList 0)

/-- Apply a sequence of `str.replace` calls in order, as the scripts do
when looping over a replacement dictionary. -/
def applyReplacements : List (String × String) → String → String
  | [], s => s
  | (o, n) :: rest, s => applyReplacements rest (pyReplace s o n)

/-- Helper for Python's substring test. -/
def subAux (pat : List Char) : List Char → Bool
  | [] => pat.isPrefixOf []
  | c :: rest => pat.isPrefixOf (c :: rest) || subAux pat rest

/-- Python `sub in s`. -/
def containsSub (s sub : String) : Bool := subAux sub.toList s.toList

/-- Python `tag.split('}')[-1] if '}' in tag else tag`: the local part of
a namespaced ElementTree tag. -/
def localName (tag : String) : String :=
  String.mk ((tag.toList.reverse.takeWhile (· ≠ '}')).reverse)

/-- Python `sep.join(parts)`. -/
def strJoinSep (sep : String) : List String → String
  | [] => ""
  | [s] => s
  | s :: rest => s ++ sep ++ strJoinSep sep rest

/-- Python `''.join(parts)` (also used for plain string accumulation). -/
def joinAll : List String → String
  | [] => ""
  | s :: rest => s ++ joinAll rest

/-- Python `s * n` for strings. -/
def strRepeat (s : String) : Nat → String
  | 0 => ""
  | n + 1 => s ++ strRepeat s n

/-- Python `' ' * n` (indentation). -/
def spaces (n : Nat) : String := strRepeat " " n

/-- Value of a digit string (callers guard with `isdigit`). -/
def digitsToNat : List Char → Nat → Nat
  | [], acc => acc
  | c :: r, acc => digitsToNat r (acc * 10 + (c.toNat - 48))

/-- Python `s.isdigit()` (for the ASCII digit strings the scripts see). -/
def pyIsDigit (s : String) : Bool :=
  !s.toList.isEmpty && s.toList.all (·.isDigit)

/-- Python `int(s)` on a digit string. -/
def pyInt (s : String) : Nat := digitsToNat s.toList 0

mutual
/-- Python `''.join(elem.itertext())`: leading text, then each child's
itertext followed by its tail, in document order. -/
def itertext : Elem → String
  | .mk _ _ tx ch _ => tx ++ itertextL ch
/-- Itertext of a child list. -/
def itertextL : List Elem → String
  | [] => ""
  | c :: rest => itertext c ++ c.tail ++ itertextL rest
end

mutual
/-- All descendants of an element in document order (what
`elem.findall('.//tag')` filters). -/
def descendants : Elem → List Elem
  | .mk _ _ _ ch _ => descList ch
/-- Descendants contributed by a child list. -/
def descList : List Elem → List Elem
  | [] => []
  | c :: rest => c :: (descendants c ++ descList rest)
end

/-- `elem.findall('.//T')` for a fully qualified tag `T`. -/
def findallDesc (t : String) (e : Elem) : List Elem :=
  (descendants e).filter (fun d => d.tag == t)

/-- `elem.find('.//T')`. -/
def findDesc (t : String) (e : Elem) : Option Elem :=
  (findallDesc t e).head?

/-- `elem.findall('./T')` (direct children with tag `T`). -/
def childrenT (t : String) (e : Elem) : List Elem :=
  e.children.filter (fun d => d.tag == t)

/-- `elem.find('./T')` (or `elem.find('T')`). -/
def findChildT (t : String) (e : Elem) : Option Elem :=
  (childrenT t e).head?

/-- The children strictly after the first occurrence of `t`
(`list(child)[list(child).index(title) + 1:]`). -/
def afterFirst (t : Elem) : List Elem → List Elem
  | [] => []
  | c :: rest => if c == t then rest else afterFirst t rest

section SizeLemmas

theorem sizeOf_lt_of_mem_childList {c : Elem} :
    ∀ {l : List Elem}, c ∈ l → sizeOf c < sizeOf l := by
  intro l h
  exact List.sizeOf_lt_of_mem h

theorem sizeOf_children_lt (e : Elem) : sizeOf e.children < sizeOf e := by
  cases e with
  | mk t a x ch tl => simp [Elem.children]; omega

theorem sizeOf_lt_of_mem_children {c : Elem} {e : Elem} (h : c ∈ e.children) :
    sizeOf c < sizeOf e :=
  lt_trans (sizeOf_lt_of_mem_childList h) (sizeOf_children_lt e)

theorem sizeOf_filter_le (p : Elem → Bool) :
    ∀ l : List Elem, sizeOf (l.filter p) ≤ sizeOf l := by
  intro l
  induction l with
  | nil => simp
  | cons c rest ih =>
      by_cases h : p c
      · simp [List.filter_cons, h]; omega
      · simp [List.filter_cons, h]; omega

theorem sizeOf_childrenT_lt (t : String) (e : Elem) :
    sizeOf (childrenT t e) < sizeOf e :=
  lt_of_le_of_lt (sizeOf_filter_le _ e.children) (sizeOf_children_lt e)

theorem findChildT_mem {t : String} {e c : Elem} (h : findChildT t e = some c) :
    c ∈ e.children := by
  have hmem : c ∈ childrenT t e := by
    unfold findChildT at h
    exact List.mem_of_mem_head? h
  exact List.mem_of_mem_filter hmem

theorem sizeOf_lt_of_findChildT {t : String} {e c : Elem}
    (h : findChildT t e = some c) : sizeOf c < sizeOf e :=
  sizeOf_lt_of_mem_children (findChildT_mem h)

mutual
theorem sizeOf_lt_of_mem_descList :
    ∀ (l : List Elem) (d : Elem), d ∈ descList l → sizeOf d < sizeOf l
  | c :: rest, d, h => by
      simp only [descList, List.mem_cons, List.mem_append] at h
      rcases h with h | h | h
      · have hs : sizeOf (c :: rest) = 1 + sizeOf c + sizeOf rest := by simp
        rw [h]
        omega
      · have h1 := sizeOf_lt_of_mem_descendants c d h
        have : sizeOf (c :: rest) = 1 + sizeOf c + sizeOf rest := by simp
        omega
      · have h1 := sizeOf_lt_of_mem_descList rest d h
        have : sizeOf (c :: rest) = 1 + sizeOf c + sizeOf rest := by simp
        omega
theorem sizeOf_lt_of_mem_descendants :
    ∀ (e : Elem) (d : Elem), d ∈ descendants e → sizeOf d < sizeOf e
  | .mk t a x ch tl, d, h => by
      simp only [descendants] at h
      have h1 := sizeOf_lt_of_mem_descList ch d h
      have : sizeOf (Elem.mk t a x ch tl) = 1 + sizeOf t + sizeOf a + sizeOf x + sizeOf ch + sizeOf tl := by
        simp
      omega
end

theorem sizeOf_lt_of_findDesc {t : String} {e c : Elem}
    (h : findDesc t e = some c) : sizeOf c < sizeOf e := by
  have hmem : c ∈ findallDesc t e := by
    unfold findDesc at h
    exact List.mem_of_mem_head? h
  have hdesc : c ∈ descendants e := List.mem_of_mem_filter hmem
  exact sizeOf_lt_of_mem_descendants e c hdesc

theorem sizeOf_afterFirst_le (t : Elem) :
    ∀ l : List Elem, sizeOf (afterFirst t l) ≤ sizeOf l := by
  intro l
  induction l with
  | nil => simp [afterFirst]
  | cons c rest ih =>
      simp only [afterFirst]
      by_cases h : (c == t) = true
      · rw [if_pos h]
        have hs : sizeOf (c :: rest) = 1 + sizeOf c + sizeOf rest := by simp
        omega
      · rw [if_neg h]
        have hs : sizeOf (c :: rest) = 1 + sizeOf c + sizeOf rest := by simp
        omega

end SizeLemmas

/-- Qualify a local name in the CNXML namespace, as ElementTree stores tags. -/
def cnx (t : String) : String := "\x7bhttp://cnx.rice.edu/cnxml\x7d" ++ t

/-- Qualify a local name in the MathML namespace. -/
def mml (t : String) : String := "\x7bhttp://www.w3.org/1998/Math/MathML\x7d" ++ t

/-- The scripts' `CNXML_NS` namespace table (read-only; passed around but
only consulted through the pre-qualified tag strings above). -/
def CNXML_NS : List (String × String) :=
  [("", "http://cnx.rice.edu/cnxml"),
   ("m", "http://www.w3.org/1998/Math/MathML"),
   ("md", "http://cnx.rice.edu/mdml")]

/-- Python `d.get(k, k)` for the symbol dictionaries: look `k` up,
defaulting to `k` itself. -/
def lookupD (m : List (String × String)) (k : String) : String :=
  (m.lookup k).getD k

namespace Ch06Full

/-- The leaf-text replacement dictionary of
`convert_ch06_full.convert_mathml_to_latex` (insertion order preserved). -/
def mathReplacements : List (String × String) :=
  [("μ", "\\mu"), ("σ", "\\sigma"), ("π", "\\pi"), ("θ", "\\theta"),
   ("−", "-"), ("–", "-"), ("≤", "\\leq"), ("≥", "\\geq"),
   ("≈", "\\approx"), ("∼", "\\sim"), ("~", "\\sim"),
   ("∞", "\\infty"), ("≠", "\\neq"), ("×", "\\times"),
   ("·", "\\cdot"), ("…", "\\ldots"), ("±", "\\pm")]

/-- The `greek` dictionary for `mi` children. -/
def miGreek : List (String × String) :=
  [("μ", "\\mu"), ("σ", "\\sigma"), ("π", "\\pi"), ("θ", "\\theta"), ("Σ", "\\Sigma")]

/-- The `ops` dictionary for `mo` children. -/
def moOps : List (String × String) :=
  [("−", "-"), ("–", "-"), ("∼", "\\sim"), ("~", "\\sim"),
   ("≤", "\\leq"), ("≥", "\\geq"), ("≈", "\\approx"),
   ("×", "\\times"), ("·", "\\cdot"), ("≠", "\\neq"), ("±", "\\pm")]

mutual
/-- `convert_ch06_full.convert_mathml_to_latex`: leaf nodes with text get
symbol substitution; otherwise each child is dispatched on its local tag
and the trimmed tail of each child is appended after its chunk. -/
def convert_mathml_to_latex (e : Elem) : String :=
  match e with
  | .mk _ _ tx ch _ =>
      let text := pyStrip tx
      if text != "" && ch.isEmpty then applyReplacements mathReplacements text
      else convertLoop ch

/-- The `for child in elem` dispatch loop of `convert_mathml_to_latex`,
producing the concatenation of all appended chunks. -/
def convertLoop : List Elem → String
  | [] => ""
  | c :: rest =>
      (let ctag := localName c.tag
       let ctext := pyStrip c.text
       if ctag = "mi" then lookupD miGreek ctext
       else if ctag = "mn" then ctext
       else if ctag = "mo" then lookupD moOps ctext
       else if ctag = "mtext" then
         (if ctext != "" then "\\text\x7b" ++ ctext ++ "\x7d" else "")
       else if ctag = "mfrac" then mfracChunk c
       else if ctag = "msub" then msubChunk c
       else if ctag = "msup" then msupChunk c
       else if ctag = "mover" then moverChunk c
       else if ctag = "msqrt" then msqrtChunk c
       else if ctag = "mrow" then convert_mathml_to_latex c
       else if ctag = "mtable" then mtableChunk c
       else convert_mathml_to_latex c)
      ++ pyStrip c.tail
      ++ convertLoop rest

/-- The `mfrac` branch: `\frac{num}{den}` with missing operands rendered
as the empty string. -/
def mfracChunk : Elem → String
  | .mk _ _ _ ch _ =>
      match ch with
      | a :: b :: _ =>
          "\\frac\x7b" ++ convert_mathml_to_latex a ++ "\x7d\x7b" ++
            convert_mathml_to_latex b ++ "\x7d"
      | [a] => "\\frac\x7b" ++ convert_mathml_to_latex a ++ "\x7d\x7b\x7d"
      | [] => "\\frac\x7b\x7d\x7b\x7d"

/-- The `msub` branch: `base_{sub}` with missing operands empty. -/
def msubChunk : Elem → String
  | .mk _ _ _ ch _ =>
      match ch with
      | a :: b :: _ =>
          convert_mathml_to_latex a ++ "_\x7b" ++ convert_mathml_to_latex b ++ "\x7d"
      | [a] => convert_mathml_to_latex a ++ "_\x7b\x7d"
      | [] => "_\x7b\x7d"

/-- The `msup` branch: `base^{sup}` with missing operands empty. -/
def msupChunk : Elem → String
  | .mk _ _ _ ch _ =>
      match ch with
      | a :: b :: _ =>
          convert_mathml_to_latex a ++ "^\x7b" ++ convert_mathml_to_latex b ++ "\x7d"
      | [a] => convert_mathml_to_latex a ++ "^\x7b\x7d"
      | [] => "^\x7b\x7d"

/-- The `mover` branch: overline when the accent child's text is `¯`,
else just the base. -/
def moverChunk : Elem → String
  | .mk _ _ _ ch _ =>
      match ch with
      | a :: b :: _ =>
          if pyStrip b.text = "¯" then
            "\\overline\x7b" ++ convert_mathml_to_latex a ++ "\x7d"
          else convert_mathml_to_latex a
      | [a] => convert_mathml_to_latex a
      | [] => ""

/-- The `msqrt` branch: `\sqrt{first child}`. -/
def msqrtChunk : Elem → String
  | .mk _ _ _ ch _ =>
      match ch with
      | a :: _ => "\\sqrt\x7b" ++ convert_mathml_to_latex a ++ "\x7d"
      | [] => "\\sqrt\x7b\x7d"

/-- The `mtable` branch: rows joined by `\\`, each row's cells joined by
spaces; nothing is appended for an empty row list. -/
def mtableChunk : Elem → String
  | .mk _ _ _ ch _ =>
      let rows := mtableRows ch
      if rows.isEmpty then "" else strJoinSep " \\\\ " rows

/-- Rows of an `mtable` (rows without cells are dropped). -/
def mtableRows : List Elem → List String
  | [] => []
  | r :: rest =>
      if r.children.isEmpty then mtableRows rest
      else strJoinSep " " (mtableRowCells r) :: mtableRows rest

/-- Cells of one row. -/
def mtableRowCells : Elem → List String
  | .mk _ _ _ cells _ => mtableCells cells

/-- Converted cells of a row. -/
def mtableCells : List Elem → List String
  | [] => []
  | c :: rest => convert_mathml_to_latex c :: mtableCells rest
end

/-- `convert_ch06_full.xml_escape`: sequential replacement of `&`, `<`,
`>` (no guard against already-escaped entities). -/
def xml_escape (text : String) : String :=
  if text = "" then text
  else
    let t1 := pyReplace text "&" "&amp;"
    let t2 := pyReplace t1 "<" "&lt;"
    pyReplace t2 ">" "&gt;"

/-- The variable-name list of the italics heuristic in `extract_text`. -/
def varNames : List String :=
  ["X", "Y", "Z", "P", "Q", "x", "y", "z", "p", "q", "k", "n"]

mutual
/-- `convert_ch06_full.extract_text`: inline rendering of mixed content. -/
def extract_text (e : Elem) (namespaces : List (String × String)) : String :=
  match e with
  | .mk _ _ tx ch _ =>
      (if tx != "" then xml_escape tx else "") ++ extractLoop ch namespaces

/-- The `for child in elem` dispatch loop of `extract_text`. -/
def extractLoop : List Elem → List (String × String) → String
  | [], _ => ""
  | c :: rest, namespaces =>
      (let tag := localName c.tag
       if tag = "math" then "<m>" ++ convert_mathml_to_latex c ++ "</m>"
       else if tag = "emphasis" then
         let effect := c.get "effect" ""
         let content := extract_text c namespaces
         if effect = "italics" then
           if (pyStrip content).length ≤ 2 || varNames.contains (pyStrip content) then
             "<m>" ++ content ++ "</m>"
           else "<em>" ++ content ++ "</em>"
         else if effect = "bold" then "<alert>" ++ content ++ "</alert>"
         else content
       else if tag = "term" then "<term>" ++ extract_text c namespaces ++ "</term>"
       else if tag = "code" then "<c>" ++ extract_text c namespaces ++ "</c>"
       else if tag = "sup" then "^\x7b" ++ extract_text c namespaces ++ "\x7d"
       else if tag = "sub" then "_\x7b" ++ extract_text c namespaces ++ "\x7d"
       else if tag = "newline" then strRepeat "<nbsp/>" (pyInt (c.get "count" "1"))
       else if tag = "link" then
         let content := extract_text c namespaces
         let url := c.get "url" (c.get "document" "")
         if url != "" then "<url href=\"" ++ url ++ "\">" ++ content ++ "</url>"
         else content
       else extract_text c namespaces)
      ++ (if c.tail != "" then xml_escape c.tail else "")
      ++ extractLoop rest namespaces
end

/-- `convert_ch06_full.process_para`: wrap the rendered text in `<p>`,
suppressing the paragraph entirely when the trimmed text is empty. -/
def process_para (para : Elem) (namespaces : List (String × String))
    (indent : String) : String :=
  let text := pyStrip (extract_text para namespaces)
  if text = "" then ""
  else indent ++ "<p>" ++ text ++ "</p>\n"

/-- The `<li>` lines of `process_list`, one per `item` found by the
recursive descendant search. -/
def listItemLines : List Elem → List (String × String) → String → String
  | [], _, _ => ""
  | item :: rest, namespaces, indent =>
      indent ++ "  <li>" ++ pyStrip (extract_text item namespaces) ++ "</li>\n"
        ++ listItemLines rest namespaces indent

/-- `convert_ch06_full.process_list`: `ol`/`ul` wrapper chosen by the
`list-type` attribute, items gathered with `findall('.//item')`. -/
def process_list (list_elem : Elem) (namespaces : List (String × String))
    (indent : String) : String :=
  let list_type := list_elem.get "list-type" "bulleted"
  let tag := if list_type = "enumerated" then "ol" else "ul"
  indent ++ "<" ++ tag ++ ">\n"
    ++ listItemLines (findallDesc (cnx "item") list_elem) namespaces indent
    ++ indent ++ "</" ++ tag ++ ">\n"

/-- `convert_ch06_full.process_equation`. -/
def process_equation (eq : Elem) (_namespaces : List (String × String))
    (indent : String) : String :=
  match findDesc (mml "math") eq with
  | some math_elem => indent ++ "<me>" ++ convert_mathml_to_latex math_elem ++ "</me>\n"
  | none => ""

/-- `convert_ch06_full.process_figure`. -/
def process_figure (fig : Elem) (namespaces : List (String × String))
    (indent : String) : String :=
  let fig_id := fig.get "id" ""
  let r := indent ++ "<figure" ++
    (if fig_id != "" then " xml:id=\"" ++ fig_id ++ "\"" else "") ++ ">\n"
  let r := r ++
    (match findDesc (cnx "caption") fig with
     | some caption =>
         indent ++ "  <caption>" ++ pyStrip (extract_text caption namespaces) ++ "</caption>\n"
     | none => "")
  let r := r ++
    (match findDesc (cnx "image") fig with
     | some image =>
         let src := pyReplace (image.get "src" "") "../../media/" "media/"
         let width := image.get "width" ""
         indent ++ "  <image source=\"" ++ src ++ "\"" ++
           (if width != "" then
              (if pyIsDigit width then " width=\"" ++ toString (pyInt width / 5) ++ "%\""
               else " width=\"" ++ width ++ "\"")
            else "") ++ "/>\n"
     | none => "")
  r ++ indent ++ "</figure>\n"

/-- Render a sequence of paragraphs via `process_para`. -/
def parasOf (l : List Elem) (namespaces : List (String × String))
    (indent : String) : String :=
  joinAll (l.map (fun p => process_para p namespaces indent))

/-- Render a sequence of lists via `process_list`. -/
def listsOf (l : List Elem) (namespaces : List (String × String))
    (indent : String) : String :=
  joinAll (l.map (fun x => process_list x namespaces indent))

/-- Render a sequence of equations via `process_equation`. -/
def equationsOf (l : List Elem) (namespaces : List (String × String))
    (indent : String) : String :=
  joinAll (l.map (fun x => process_equation x namespaces indent))

/-- Render a sequence of figures via `process_figure`. -/
def figuresOf (l : List Elem) (namespaces : List (String × String))
    (indent : String) : String :=
  joinAll (l.map (fun x => process_figure x namespaces indent))

/-- The para/list/equation/figure dispatch loop used for direct children
of `example`/`problem`/`solution` (tags outside the dispatch, including
the skipped `solution`/`title`, contribute nothing). -/
def plefLoop (l : List Elem) (namespaces : List (String × String))
    (indent : String) : String :=
  joinAll (l.map (fun child =>
    let tag := localName child.tag
    if tag = "para" then process_para child namespaces indent
    else if tag = "list" then process_list child namespaces indent
    else if tag = "equation" then process_equation child namespaces indent
    else if tag = "figure" then process_figure child namespaces indent
    else ""))

/-- `convert_ch06_full.process_example`. -/
def process_example (ex : Elem) (namespaces : List (String × String))
    (indent : String) : String :=
  let ex_id := ex.get "id" ""
  let r := indent ++ "<example" ++
    (if ex_id != "" then " xml:id=\"" ++ ex_id ++ "\"" else "") ++ ">\n"
  let r := r ++
    (match findDesc (cnx "title") ex with
     | some title =>
         if title.text != "" then
           indent ++ "  <title>" ++ pyStrip title.text ++ "</title>\n"
         else ""
     | none => "")
  let r := r ++ indent ++ "  <statement>\n"
  let r := r ++
    (match findDesc (cnx "problem") ex with
     | some problem =>
         parasOf (findallDesc (cnx "para") problem) namespaces (indent ++ "    ")
           ++ listsOf (findallDesc (cnx "list") problem) namespaces (indent ++ "    ")
           ++ equationsOf (findallDesc (cnx "equation") problem) namespaces (indent ++ "    ")
           ++ figuresOf (findallDesc (cnx "figure") problem) namespaces (indent ++ "    ")
     | none => plefLoop ex.children namespaces (indent ++ "    "))
  let r := r ++ indent ++ "  </statement>\n"
  let r := r ++
    (match findDesc (cnx "solution") ex with
     | some solution =>
         indent ++ "  <solution>\n"
           ++ parasOf (findallDesc (cnx "para") solution) namespaces (indent ++ "    ")
           ++ listsOf (findallDesc (cnx "list") solution) namespaces (indent ++ "    ")
           ++ equationsOf (findallDesc (cnx "equation") solution) namespaces (indent ++ "    ")
           ++ figuresOf (findallDesc (cnx "figure") solution) namespaces (indent ++ "    ")
           ++ indent ++ "  </solution>\n"
     | none => "")
  r ++ indent ++ "</example>\n"

/-- `convert_ch06_full.process_note`. -/
def process_note (note : Elem) (namespaces : List (String × String))
    (indent : String) : String :=
  let note_class := note.get "class" ""
  let note_id := note.get "id" ""
  let tag :=
    if containsSub note_class "try" then "exercise"
    else if containsSub note_class "collab" then "activity"
    else if containsSub note_class "lab" then "project"
    else if containsSub note_class "calculator" then "aside"
    else "note"
  let title :=
    if containsSub note_class "try" then "Try It"
    else if containsSub note_class "collab" then "Collaborative Activity"
    else if containsSub note_class "lab" then "Lab"
    else if containsSub note_class "calculator" then "Calculator"
    else ""
  let r := indent ++ "<" ++ tag ++
    (if note_id != "" then " xml:id=\"" ++ note_id ++ "\"" else "") ++ ">\n"
  let r := r ++
    (match findDesc (cnx "title") note with
     | some title_elem =>
         if title_elem.text != "" then
           indent ++ "  <title>" ++ pyStrip title_elem.text ++ "</title>\n"
         else if title != "" then indent ++ "  <title>" ++ title ++ "</title>\n"
         else ""
     | none =>
         if title != "" then indent ++ "  <title>" ++ title ++ "</title>\n" else "")
  let r := r ++
    (if tag = "exercise" then
       indent ++ "  <statement>\n"
         ++ parasOf (findallDesc (cnx "para") note) namespaces (indent ++ "    ")
         ++ listsOf (findallDesc (cnx "list") note) namespaces (indent ++ "    ")
         ++ indent ++ "  </statement>\n"
     else
       parasOf (findallDesc (cnx "para") note) namespaces (indent ++ "  ")
         ++ listsOf (findallDesc (cnx "list") note) namespaces (indent ++ "  "))
  r ++ indent ++ "</" ++ tag ++ ">\n"

/-- `convert_ch06_full.process_exercise`. -/
def process_exercise (ex : Elem) (namespaces : List (String × String))
    (indent : String) : String :=
  let ex_id := ex.get "id" ""
  let r := indent ++ "<exercise" ++
    (if ex_id != "" then " xml:id=\"" ++ ex_id ++ "\"" else "") ++ ">\n"
  let r := r ++
    (match findDesc (cnx "title") ex with
     | some title =>
         if title.text != "" then
           indent ++ "  <title>" ++ pyStrip title.text ++ "</title>\n"
         else ""
     | none => "")
  let r := r ++ indent ++ "  <statement>\n"
  let r := r ++
    (match findDesc (cnx "problem") ex with
     | some problem => plefLoop problem.children namespaces (indent ++ "    ")
     | none => "")
  let r := r ++ indent ++ "  </statement>\n"
  let r := r ++
    (match findDesc (cnx "solution") ex with
     | some solution =>
         indent ++ "  <solution>\n"
           ++ plefLoop solution.children namespaces (indent ++ "    ")
           ++ indent ++ "  </solution>\n"
     | none => "")
  r ++ indent ++ "</exercise>\n"

/-- `convert_ch06_full.process_element`: the structural dispatch table;
`title` is explicitly skipped and any unrecognized tag yields `""`. -/
def process_element (elem : Elem) (namespaces : List (String × String))
    (indent : String) : String :=
  let tag := localName elem.tag
  if tag = "para" then process_para elem namespaces indent
  else if tag = "list" then process_list elem namespaces indent
  else if tag = "equation" then process_equation elem namespaces indent
  else if tag = "figure" then process_figure elem namespaces indent
  else if tag = "example" then process_example elem namespaces indent
  else if tag = "note" then process_note elem namespaces indent
  else if tag = "exercise" then process_exercise elem namespaces indent
  else if tag = "title" then ""
  else ""

/-- The inner loop over a nested `section`'s children in `convert_module`. -/
def sectionChildLoop (l : List Elem) : String :=
  joinAll (l.map (fun subchild => process_element subchild CNXML_NS "      "))

/-- The loop over direct children of `content` in `convert_module`. -/
def moduleChildLoop (l : List Elem) : String :=
  joinAll (l.map (fun child =>
    if localName child.tag = "section" then
      let section_id_nested := child.get "id" ""
      let section_title_nested :=
        match findChildT (cnx "title") child with
        | some title_elem => if title_elem.text != "" then pyStrip title_elem.text else ""
        | none => ""
      "\n    <subsection" ++
        (if section_id_nested != "" then " xml:id=\"" ++ section_id_nested ++ "\"" else "") ++
        ">\n" ++
        (if section_title_nested != "" then
           "      <title>" ++ section_title_nested ++ "</title>\n"
         else "") ++
        sectionChildLoop child.children ++
        "    </subsection>\n"
    else process_element child CNXML_NS "    "))

/-- `convert_ch06_full.convert_module`, modelled from the parsed root
element onward (`ET.parse` is outside the embedding; a file that parses
yields its root tree here). -/
def convert_module (root : Elem) (section_id section_title : String) : String :=
  match findDesc (cnx "content") root with
  | none => ""
  | some content =>
      "\n  <section xml:id=\"" ++ section_id ++ "\">\n" ++
        "    <title>" ++ section_title ++ "</title>\n\n" ++
        moduleChildLoop content.children ++
        "\n  </section>\n"

end Ch06Full

namespace Ch09Full

/-- `convert_ch09_full.convert_mathml_to_latex` is character-for-character
identical to the ch06 variant, so we reuse that embedding. -/
def convert_mathml_to_latex : Elem → String := Ch06Full.convert_mathml_to_latex

/-- `convert_ch09_full.xml_escape` (identical to the ch06 variant). -/
def xml_escape : String → String := Ch06Full.xml_escape

/-- `convert_ch09_full.extract_text` (identical to the ch06 variant). -/
def extract_text : Elem → List (String × String) → String := Ch06Full.extract_text

/-- One `<row>` line per `row`, cells rendered via `extract_text`. -/
def rowLines (rows : List Elem) (namespaces : List (String × String))
    (indent : String) : String :=
  joinAll (rows.map (fun row =>
    indent ++ "    <row>" ++
      joinAll ((findallDesc (cnx "entry") row).map (fun entry =>
        "<cell>" ++ pyStrip (extract_text entry namespaces) ++ "</cell>")) ++
      "</row>\n"))

/-- `convert_ch09_full.process_table`. -/
def process_table (table_elem : Elem) (namespaces : List (String × String))
    (indent : String) : String :=
  let table_id := table_elem.get "id" ""
  let r := indent ++ "<table" ++
    (if table_id != "" then " xml:id=\"" ++ table_id ++ "\"" else "") ++ ">\n"
  let r := r ++
    (match findDesc (cnx "caption") table_elem with
     | some caption =>
         let cap_text := pyStrip (extract_text caption namespaces)
         if cap_text != "" then indent ++ "  <caption>" ++ cap_text ++ "</caption>\n"
         else ""
     | none => "")
  let r := r ++
    (match findDesc (cnx "tgroup") table_elem with
     | some tgroup =>
         indent ++ "  <tabular>\n" ++
           (match findDesc (cnx "thead") tgroup with
            | some thead => rowLines (findallDesc (cnx "row") thead) namespaces indent
            | none => "") ++
           (match findDesc (cnx "tbody") tgroup with
            | some tbody => rowLines (findallDesc (cnx "row") tbody) namespaces indent
            | none => "") ++
           indent ++ "  </tabular>\n"
     | none => "")
  r ++ indent ++ "</table>\n"

/-- The parts collected by the pre-table loop of
`convert_ch09_full.process_para`: children are processed until the table
is reached, each followed by its raw tail. -/
def beforeParts : List Elem → Elem → List (String × String) → List String
  | [], _, _ => []
  | c :: rest, table, namespaces =>
      if c == table then []
      else
        (let tag := localName c.tag
         if tag = "emphasis" then
           let effect := c.get "effect" ""
           let content := extract_text c namespaces
           if effect = "italics" then
             (if (pyStrip content).length ≤ 2 then ["<m>" ++ content ++ "</m>"]
              else ["<em>" ++ content ++ "</em>"])
           else if effect = "bold" then ["<alert>" ++ content ++ "</alert>"]
           else [content]
         else [extract_text c namespaces])
        ++ (if c.tail != "" then [c.tail] else [])
        ++ beforeParts rest table namespaces

/-- `convert_ch09_full.process_para`: if the paragraph contains a table,
split into leading paragraph, rendered table, and trailing-tail
paragraph; otherwise behave like the plain paragraph emitter. -/
def process_para (para : Elem) (namespaces : List (String × String))
    (indent : String) : String :=
  match findDesc (cnx "table") para with
  | some table =>
      let text_parts :=
        (if para.text != "" then [para.text] else []) ++
          beforeParts para.children table namespaces
      let text_before := pyStrip (joinAll text_parts)
      (if text_before != "" then indent ++ "<p>" ++ text_before ++ "</p>\n" else "")
        ++ process_table table namespaces indent
        ++ (if table.tail != "" && pyStrip table.tail != "" then
              indent ++ "<p>" ++ xml_escape (pyStrip table.tail) ++ "</p>\n"
            else "")
  | none =>
      let text := pyStrip (extract_text para namespaces)
      if text = "" then ""
      else indent ++ "<p>" ++ text ++ "</p>\n"

end Ch09Full

namespace Ch11

/-- The leaf-text replacement dictionary of
`convert_ch11.convert_mathml_to_latex` (adds `χ` and `Σ`). -/
def mathReplacements : List (String × String) :=
  [("μ", "\\mu"), ("σ", "\\sigma"), ("π", "\\pi"), ("θ", "\\theta"),
   ("χ", "\\chi"), ("Σ", "\\Sigma"),
   ("−", "-"), ("–", "-"), ("≤", "\\leq"), ("≥", "\\geq"),
   ("≈", "\\approx"), ("∼", "\\sim"), ("~", "\\sim"),
   ("∞", "\\infty"), ("≠", "\\neq"), ("×", "\\times"),
   ("·", "\\cdot"), ("…", "\\ldots"), ("±", "\\pm")]

/-- The `greek` dictionary for `mi` children (adds `χ`). -/
def miGreek : List (String × String) :=
  [("μ", "\\mu"), ("σ", "\\sigma"), ("π", "\\pi"), ("θ", "\\theta"),
   ("Σ", "\\Sigma"), ("χ", "\\chi")]

/-- The `ops` dictionary for `mo` children: note that `Σ` maps to `\sum`
here, in every position. -/
def moOps : List (String × String) :=
  [("−", "-"), ("–", "-"), ("∼", "\\sim"), ("~", "\\sim"),
   ("≤", "\\leq"), ("≥", "\\geq"), ("≈", "\\approx"),
   ("×", "\\times"), ("·", "\\cdot"), ("≠", "\\neq"),
   ("±", "\\pm"), ("Σ", "\\sum")]

/-- The inline `\Sigma → \sum` override applied to the already-rewritten
base of a ch11 under/over construct (`if base == r'\Sigma': base = r'\sum'`). -/
def sigmaBase (base : String) : String :=
  if base = "\\Sigma" then "\\sum" else base

mutual
/-- `convert_ch11.convert_mathml_to_latex`. -/
def convert_mathml_to_latex (e : Elem) : String :=
  match e with
  | .mk _ _ tx ch _ =>
      let text := pyStrip tx
      if text != "" && ch.isEmpty then applyReplacements mathReplacements text
      else convertLoop ch

/-- The `for child in elem` dispatch loop of the ch11 rewriter. -/
def convertLoop : List Elem → String
  | [] => ""
  | c :: rest =>
      (let ctag := localName c.tag
       let ctext := pyStrip c.text
       if ctag = "mi" then lookupD miGreek ctext
       else if ctag = "mn" then ctext
       else if ctag = "mo" then lookupD moOps ctext
       else if ctag = "mtext" then
         (if ctext != "" then "\\text\x7b" ++ ctext ++ "\x7d" else "")
       else if ctag = "mfrac" then mfracChunk c
       else if ctag = "msub" then msubChunk c
       else if ctag = "msup" then msupChunk c
       else if ctag = "msubsup" then msubsupChunk c
       else if ctag = "mover" then moverChunk c
       else if ctag = "msqrt" then msqrtChunk c
       else if ctag = "munderover" then munderoverChunk c
       else if ctag = "munder" then munderChunk c
       else if ctag = "mrow" then convert_mathml_to_latex c
       else if ctag = "mtable" then mtableChunk c
       else convert_mathml_to_latex c)
      ++ pyStrip c.tail
      ++ convertLoop rest

/-- The ch11 `mfrac` branch. -/
def mfracChunk : Elem → String
  | .mk _ _ _ ch _ =>
      match ch with
      | a :: b :: _ =>
          "\\frac\x7b" ++ convert_mathml_to_latex a ++ "\x7d\x7b" ++
            convert_mathml_to_latex b ++ "\x7d"
      | [a] => "\\frac\x7b" ++ convert_mathml_to_latex a ++ "\x7d\x7b\x7d"
      | [] => "\\frac\x7b\x7d\x7b\x7d"

/-- The ch11 `msub` branch. -/
def msubChunk : Elem → String
  | .mk _ _ _ ch _ =>
      match ch with
      | a :: b :: _ =>
          convert_mathml_to_latex a ++ "_\x7b" ++ convert_mathml_to_latex b ++ "\x7d"
      | [a] => convert_mathml_to_latex a ++ "_\x7b\x7d"
      | [] => "_\x7b\x7d"

/-- The ch11 `msup` branch. -/
def msupChunk : Elem → String
  | .mk _ _ _ ch _ =>
      match ch with
      | a :: b :: _ =>
          convert_mathml_to_latex a ++ "^\x7b" ++ convert_mathml_to_latex b ++ "\x7d"
      | [a] => convert_mathml_to_latex a ++ "^\x7b\x7d"
      | [] => "^\x7b\x7d"

/-- The ch11 `msubsup` branch: `base_{sub}^{sup}` with missing operands
empty. -/
def msubsupChunk : Elem → String
  | .mk _ _ _ ch _ =>
      (match ch with | a :: _ => convert_mathml_to_latex a | [] => "")
        ++ "_\x7b" ++
        (match ch with | _ :: b :: _ => convert_mathml_to_latex b | _ => "")
        ++ "\x7d^\x7b" ++
        (match ch with | _ :: _ :: c :: _ => convert_mathml_to_latex c | _ => "")
        ++ "\x7d"

/-- The ch11 `mover` branch. -/
def moverChunk : Elem → String
  | .mk _ _ _ ch _ =>
      match ch with
      | a :: b :: _ =>
          if pyStrip b.text = "¯" then
            "\\overline\x7b" ++ convert_mathml_to_latex a ++ "\x7d"
          else convert_mathml_to_latex a
      | [a] => convert_mathml_to_latex a
      | [] => ""

/-- The ch11 `msqrt` branch. -/
def msqrtChunk : Elem → String
  | .mk _ _ _ ch _ =>
      match ch with
      | a :: _ => "\\sqrt\x7b" ++ convert_mathml_to_latex a ++ "\x7d"
      | [] => "\\sqrt\x7b\x7d"

/-- The ch11 `munderover` branch: a base that rewrote to `\Sigma` is
replaced by `\sum` (via `sigmaBase`) before attaching the limits;
missing operands render empty. -/
def munderoverChunk : Elem → String
  | .mk _ _ _ [] _ =>
      sigmaBase "" ++ "_\x7b" ++ "" ++ "\x7d^\x7b" ++ "" ++ "\x7d"
  | .mk _ _ _ [a] _ =>
      sigmaBase (convert_mathml_to_latex a) ++ "_\x7b" ++ "" ++ "\x7d^\x7b" ++ "" ++ "\x7d"
  | .mk _ _ _ [a, b] _ =>
      sigmaBase (convert_mathml_to_latex a) ++ "_\x7b" ++ convert_mathml_to_latex b ++
        "\x7d^\x7b" ++ "" ++ "\x7d"
  | .mk _ _ _ (a :: b :: c :: _) _ =>
      sigmaBase (convert_mathml_to_latex a) ++ "_\x7b" ++ convert_mathml_to_latex b ++
        "\x7d^\x7b" ++ convert_mathml_to_latex c ++ "\x7d"

/-- The ch11 `munder` branch, with the same `\Sigma → \sum` override. -/
def munderChunk : Elem → String
  | .mk _ _ _ [] _ => sigmaBase "" ++ "_\x7b" ++ "" ++ "\x7d"
  | .mk _ _ _ [a] _ =>
      sigmaBase (convert_mathml_to_latex a) ++ "_\x7b" ++ "" ++ "\x7d"
  | .mk _ _ _ (a :: b :: _) _ =>
      sigmaBase (convert_mathml_to_latex a) ++ "_\x7b" ++ convert_mathml_to_latex b ++ "\x7d"

/-- The ch11 `mtable` branch. -/
def mtableChunk : Elem → String
  | .mk _ _ _ ch _ =>
      let rows := mtableRows ch
      if rows.isEmpty then "" else strJoinSep " \\\\ " rows

/-- Rows of a ch11 `mtable`. -/
def mtableRows : List Elem → List String
  | [] => []
  | r :: rest =>
      if r.children.isEmpty then mtableRows rest
      else strJoinSep " " (mtableRowCells r) :: mtableRows rest

/-- Cells of one ch11 row. -/
def mtableRowCells : Elem → List String
  | .mk _ _ _ cells _ => mtableCells cells

/-- Converted cells. -/
def mtableCells : List Elem → List String
  | [] => []
  | c :: rest => convert_mathml_to_latex c :: mtableCells rest
end

/-- `convert_ch11.xml_escape` (identical to the ch06 variant). -/
def xml_escape : String → String := Ch06Full.xml_escape

/-- The italics variable-name list of the ch11 `extract_text`. -/
def varNames : List String :=
  ["X", "Y", "Z", "P", "Q", "x", "y", "z", "p", "q", "k", "n"]

mutual
/-- `convert_ch11.extract_text` (same text as the ch06 variant but
calling the ch11 math rewriter). -/
def extract_text (e : Elem) (namespaces : List (String × String)) : String :=
  match e with
  | .mk _ _ tx ch _ =>
      (if tx != "" then xml_escape tx else "") ++ extractLoop ch namespaces

/-- The ch11 inline dispatch loop. -/
def extractLoop : List Elem → List (String × String) → String
  | [], _ => ""
  | c :: rest, namespaces =>
      (let tag := localName c.tag
       if tag = "math" then "<m>" ++ convert_mathml_to_latex c ++ "</m>"
       else if tag = "emphasis" then
         let effect := c.get "effect" ""
         let content := extract_text c namespaces
         if effect = "italics" then
           if (pyStrip content).length ≤ 2 || varNames.contains (pyStrip content) then
             "<m>" ++ content ++ "</m>"
           else "<em>" ++ content ++ "</em>"
         else if effect = "bold" then "<alert>" ++ content ++ "</alert>"
         else content
       else if tag = "term" then "<term>" ++ extract_text c namespaces ++ "</term>"
       else if tag = "code" then "<c>" ++ extract_text c namespaces ++ "</c>"
       else if tag = "sup" then "^\x7b" ++ extract_text c namespaces ++ "\x7d"
       else if tag = "sub" then "_\x7b" ++ extract_text c namespaces ++ "\x7d"
       else if tag = "newline" then strRepeat "<nbsp/>" (pyInt (c.get "count" "1"))
       else if tag = "link" then
         let content := extract_text c namespaces
         let url := c.get "url" (c.get "document" "")
         if url != "" then "<url href=\"" ++ url ++ "\">" ++ content ++ "</url>"
         else content
       else extract_text c namespaces)
      ++ (if c.tail != "" then xml_escape c.tail else "")
      ++ extractLoop rest namespaces
end

/-- `convert_ch11.process_para` (same shape as the ch06 variant). -/
def process_para (para : Elem) (namespaces : List (String × String))
    (indent : String) : String :=
  let text := pyStrip (extract_text para namespaces)
  if text = "" then ""
  else indent ++ "<p>" ++ text ++ "</p>\n"

/-- The `<li>` lines of the ch11 `process_list`. -/
def listItemLines : List Elem → List (String × String) → String → String
  | [], _, _ => ""
  | item :: rest, namespaces, indent =>
      indent ++ "  <li>" ++ pyStrip (extract_text item namespaces) ++ "</li>\n"
        ++ listItemLines rest namespaces indent

/-- `convert_ch11.process_list`. -/
def process_list (list_elem : Elem) (namespaces : List (String × String))
    (indent : String) : String :=
  let list_type := list_elem.get "list-type" "bulleted"
  let tag := if list_type = "enumerated" then "ol" else "ul"
  indent ++ "<" ++ tag ++ ">\n"
    ++ listItemLines (findallDesc (cnx "item") list_elem) namespaces indent
    ++ indent ++ "</" ++ tag ++ ">\n"

/-- `convert_ch11.process_equation`. -/
def process_equation (eq : Elem) (_namespaces : List (String × String))
    (indent : String) : String :=
  match findDesc (mml "math") eq with
  | some math_elem => indent ++ "<me>" ++ convert_mathml_to_latex math_elem ++ "</me>\n"
  | none => ""

/-- `convert_ch11.process_figure` (same shape as the ch06 variant). -/
def process_figure (fig : Elem) (namespaces : List (String × String))
    (indent : String) : String :=
  let fig_id := fig.get "id" ""
  let r := indent ++ "<figure" ++
    (if fig_id != "" then " xml:id=\"" ++ fig_id ++ "\"" else "") ++ ">\n"
  let r := r ++
    (match findDesc (cnx "caption") fig with
     | some caption =>
         indent ++ "  <caption>" ++ pyStrip (extract_text caption namespaces) ++ "</caption>\n"
     | none => "")
  let r := r ++
    (match findDesc (cnx "image") fig with
     | some image =>
         let src := pyReplace (image.get "src" "") "../../media/" "media/"
         let width := image.get "width" ""
         indent ++ "  <image source=\"" ++ src ++ "\"" ++
           (if width != "" then
              (if pyIsDigit width then " width=\"" ++ toString (pyInt width / 5) ++ "%\""
               else " width=\"" ++ width ++ "\"")
            else "") ++ "/>\n"
     | none => "")
  r ++ indent ++ "</figure>\n"

end Ch11

theorem sizeOf_getD_children_lt (t : String) (e : Elem) :
    sizeOf ((findDesc t e).getD e).children < sizeOf e := by
  cases h : findDesc t e with
  | none =>
      simpa using sizeOf_children_lt e
  | some c =>
      have h1 := sizeOf_lt_of_findDesc h
      have h2 := sizeOf_children_lt c
      simp only [Option.getD_some]
      omega

namespace Ch11

/-- The `note_map` of `convert_ch11.process_note` (every listed class maps
to `note`). -/
def note_map : List (String × String) :=
  [("chapter-objectives", "note"), ("finger", "note"), ("statistics", "note"),
   ("calculator", "note"), ("try", "note")]

mutual
/-- `convert_ch11.process_example`. -/
def process_example (ex : Elem) (namespaces : List (String × String))
    (indent : String) : String :=
  let ex_id := ex.get "id" ""
  let r := indent ++ "<example" ++
    (if ex_id != "" then " xml:id=\"" ++ ex_id ++ "\"" else "") ++ ">\n"
  let r := r ++
    (match findDesc (cnx "title") ex with
     | some title =>
         if title.text != "" then indent ++ "  <title>" ++ title.text ++ "</title>\n"
         else ""
     | none => "")
  let r := r ++
    (match hp : findDesc (cnx "problem") ex with
     | some problem =>
         have _h1 : sizeOf problem < sizeOf ex := sizeOf_lt_of_findDesc hp
         have _h2 : sizeOf problem.children < sizeOf problem := sizeOf_children_lt problem
         indent ++ "  <statement>\n"
           ++ peLoop [] problem.children namespaces (indent ++ "    ")
           ++ indent ++ "  </statement>\n"
     | none =>
         have _h3 : sizeOf ((findDesc (cnx "content") ex).getD ex).children < sizeOf ex :=
           sizeOf_getD_children_lt (cnx "content") ex
         peLoop ["title"] ((findDesc (cnx "content") ex).getD ex).children namespaces
           (indent ++ "  "))
  let r := r ++
    (match hs : findDesc (cnx "solution") ex with
     | some solution =>
         have _h1 : sizeOf solution < sizeOf ex := sizeOf_lt_of_findDesc hs
         have _h2 : sizeOf solution.children < sizeOf solution := sizeOf_children_lt solution
         indent ++ "  <solution>\n"
           ++ peLoop [] solution.children namespaces (indent ++ "    ")
           ++ indent ++ "  </solution>\n"
     | none => "")
  r ++ indent ++ "</example>\n"
termination_by sizeOf ex * 2

/-- `convert_ch11.process_note`. -/
def process_note (note : Elem) (namespaces : List (String × String))
    (indent : String) : String :=
  let note_id := note.get "id" ""
  let note_class := note.get "class" ""
  let note_type := (note_map.lookup note_class).getD "note"
  let r := indent ++ "<" ++ note_type ++
    (if note_id != "" then " xml:id=\"" ++ note_id ++ "\"" else "") ++ ">\n"
  let r := r ++
    (match findDesc (cnx "title") note with
     | some title =>
         if title.text != "" then indent ++ "  <title>" ++ title.text ++ "</title>\n"
         else ""
     | none => "")
  have _h1 : sizeOf note.children < sizeOf note := sizeOf_children_lt note
  let r := r ++ peLoop ["label", "title"] note.children namespaces (indent ++ "  ")
  r ++ indent ++ "</" ++ note_type ++ ">\n"
termination_by sizeOf note * 2

/-- `convert_ch11.process_exercise`. -/
def process_exercise (ex : Elem) (namespaces : List (String × String))
    (indent : String) : String :=
  let ex_id := ex.get "id" ""
  let r := indent ++ "<exercise" ++
    (if ex_id != "" then " xml:id=\"" ++ ex_id ++ "\"" else "") ++ ">\n"
  let r := r ++
    (match findDesc (cnx "title") ex with
     | some title =>
         if title.text != "" then indent ++ "  <title>" ++ title.text ++ "</title>\n"
         else ""
     | none => "")
  let r := r ++
    (match hp : findDesc (cnx "problem") ex with
     | some problem =>
         have _h1 : sizeOf problem < sizeOf ex := sizeOf_lt_of_findDesc hp
         have _h2 : sizeOf problem.children < sizeOf problem := sizeOf_children_lt problem
         indent ++ "  <statement>\n"
           ++ peLoop [] problem.children namespaces (indent ++ "    ")
           ++ indent ++ "  </statement>\n"
     | none => "")
  let r := r ++
    (match hs : findDesc (cnx "solution") ex with
     | some solution =>
         have _h1 : sizeOf solution < sizeOf ex := sizeOf_lt_of_findDesc hs
         have _h2 : sizeOf solution.children < sizeOf solution := sizeOf_children_lt solution
         indent ++ "  <solution>\n"
           ++ peLoop [] solution.children namespaces (indent ++ "    ")
           ++ indent ++ "  </solution>\n"
     | none => "")
  r ++ indent ++ "</exercise>\n"
termination_by sizeOf ex * 2

/-- `convert_ch11.process_element`: para/list/equation/figure go to the
plain emitters; example/note/exercise recurse; anything else is dropped. -/
def process_element (elem : Elem) (namespaces : List (String × String))
    (indent : String) : String :=
  let tag := localName elem.tag
  if tag = "para" then process_para elem namespaces indent
  else if tag = "list" then process_list elem namespaces indent
  else if tag = "equation" then process_equation elem namespaces indent
  else if tag = "figure" then process_figure elem namespaces indent
  else if tag = "example" then process_example elem namespaces indent
  else if tag = "note" then process_note elem namespaces indent
  else if tag = "exercise" then process_exercise elem namespaces indent
  else ""
termination_by sizeOf elem * 2 + 1

/-- A `for elem in parent` loop dispatching to `process_element`, with an
optional list of skipped local tags. -/
def peLoop (skip : List String) : List Elem → List (String × String) → String → String
  | [], _, _ => ""
  | c :: rest, namespaces, indent =>
      (if skip.contains (localName c.tag) then "" else process_element c namespaces indent)
        ++ peLoop skip rest namespaces indent
termination_by l _ _ => sizeOf l * 2
end

/-- The section-children loop of `convert_ch11.convert_module`. -/
def moduleLoop (l : List Elem) : String :=
  joinAll (l.map (fun elem => process_element elem CNXML_NS "    "))

/-- `convert_ch11.convert_module`, modelled from the parsed root element
onward: a tree with no `content` descendant yields the empty string. -/
def convert_module (root : Elem) (section_id section_title : String) : String :=
  match findDesc (cnx "content") root with
  | none => ""
  | some content =>
      "  <section xml:id=\"" ++ section_id ++ "\">\n" ++
        "    <title>" ++ section_title ++ "</title>\n\n" ++
        (match findDesc (cnx "section") content with
         | some section_elem => moduleLoop section_elem.children
         | none => moduleLoop content.children) ++
        "  </section>\n\n"

end Ch11

namespace Ch06

/-- The leaf replacement dictionary of `convert_ch06.convert_mathml_to_latex`. -/
def mathReplacements : List (String × String) :=
  [("μ", "\\mu"), ("σ", "\\sigma"), ("π", "\\pi"),
   ("−", "-"), ("–", "-"), ("≤", "\\leq"), ("≥", "\\geq"),
   ("≈", "\\approx"), ("∼", "\\sim"), ("~", "\\sim"),
   ("∞", "\\infty"), ("≠", "\\neq")]

/-- The identifier names recognized as Greek in the ch06 `mi` branch. -/
def greekNames : List String := ["μ", "sigma", "σ", "π", "theta", "θ"]

/-- The ch06 `greek_map`. -/
def greek_map : List (String × String) :=
  [("μ", "\\mu"), ("sigma", "\\sigma"), ("σ", "\\sigma"),
   ("π", "\\pi"), ("theta", "\\theta"), ("θ", "\\theta")]

/-- The ch06 `op_map`. -/
def op_map : List (String × String) :=
  [("−", "-"), ("–", "-"), ("∼", "\\sim"), ("~", "\\sim"),
   ("≤", "\\leq"), ("≥", "\\geq"), ("≈", "\\approx"),
   ("×", "\\times"), ("·", "\\cdot"), ("≠", "\\neq")]

/-- `child.tag.replace('{…MathML}', '')`: the ch06 rewriter strips only
the MathML namespace prefix. -/
def mmlLocal (tag : String) : String :=
  pyReplace tag "\x7bhttp://www.w3.org/1998/Math/MathML\x7d" ""

mutual
/-- `convert_ch06.convert_mathml_to_latex`: note that any element with
truthy `text` is treated as a leaf (no check that it is childless). -/
def convert_mathml_to_latex (e : Elem) : String :=
  match e with
  | .mk _ _ tx ch _ =>
      if tx != "" then applyReplacements mathReplacements (pyStrip tx)
      else convertLoop ch

/-- The ch06 child dispatch loop (tails are appended raw, unstripped). -/
def convertLoop : List Elem → String
  | [] => ""
  | c :: rest =>
      (let child_tag := mmlLocal c.tag
       if child_tag = "mi" then
         (if greekNames.contains c.text then lookupD greek_map c.text else c.text)
       else if child_tag = "mn" then c.text
       else if child_tag = "mo" then lookupD op_map c.text
       else if child_tag = "mfrac" then mfracChunk c
       else if child_tag = "msub" then msubChunk c
       else if child_tag = "msup" then msupChunk c
       else if child_tag = "mover" then moverChunk c
       else if child_tag = "msqrt" then msqrtChunk c
       else if child_tag = "mrow" then convert_mathml_to_latex c
       else if child_tag = "mtext" then c.text
       else if child_tag = "mtable" then mtableFlat c
       else convert_mathml_to_latex c)
      ++ c.tail
      ++ convertLoop rest

/-- The ch06 `mfrac` branch. -/
def mfracChunk : Elem → String
  | .mk _ _ _ ch _ =>
      match ch with
      | a :: b :: _ =>
          "\\frac\x7b" ++ convert_mathml_to_latex a ++ "\x7d\x7b" ++
            convert_mathml_to_latex b ++ "\x7d"
      | [a] => "\\frac\x7b" ++ convert_mathml_to_latex a ++ "\x7d\x7b\x7d"
      | [] => "\\frac\x7b\x7d\x7b\x7d"

/-- The ch06 `msub` branch. -/
def msubChunk : Elem → String
  | .mk _ _ _ ch _ =>
      match ch with
      | a :: b :: _ =>
          convert_mathml_to_latex a ++ "_\x7b" ++ convert_mathml_to_latex b ++ "\x7d"
      | [a] => convert_mathml_to_latex a ++ "_\x7b\x7d"
      | [] => "_\x7b\x7d"

/-- The ch06 `msup` branch. -/
def msupChunk : Elem → String
  | .mk _ _ _ ch _ =>
      match ch with
      | a :: b :: _ =>
          convert_mathml_to_latex a ++ "^\x7b" ++ convert_mathml_to_latex b ++ "\x7d"
      | [a] => convert_mathml_to_latex a ++ "^\x7b\x7d"
      | [] => "^\x7b\x7d"

/-- The ch06 `mover` branch: `\bar` when the accent text is `¯` or some
attribute value is `accent`. -/
def moverChunk : Elem → String
  | .mk _ a _ ch _ =>
      let base := match ch with | x :: _ => convert_mathml_to_latex x | [] => ""
      let over := match ch with | _ :: y :: _ => y.text | _ => ""
      if over = "¯" || (a.map Prod.snd).contains "accent" then
        "\\bar\x7b" ++ base ++ "\x7d"
      else base

/-- The ch06 `msqrt` branch. -/
def msqrtChunk : Elem → String
  | .mk _ _ _ ch _ =>
      match ch with
      | a :: _ => "\\sqrt\x7b" ++ convert_mathml_to_latex a ++ "\x7d"
      | [] => "\\sqrt\x7b\x7d"

/-- The ch06 `mtable` branch: all cells flattened, each followed by a
space. -/
def mtableFlat : Elem → String
  | .mk _ _ _ rows _ => mtableRowsFlat rows

/-- Rows of a ch06 `mtable`. -/
def mtableRowsFlat : List Elem → String
  | [] => ""
  | r :: rest => mtableCellsOf r ++ mtableRowsFlat rest

/-- Cells of one ch06 row. -/
def mtableCellsOf : Elem → String
  | .mk _ _ _ cells _ => cellsFlat cells

/-- Flattened cells. -/
def cellsFlat : List Elem → String
  | [] => ""
  | c :: rest => convert_mathml_to_latex c ++ " " ++ cellsFlat rest
end

/-- The tag normalization of `extract_text_with_math`:
`tag.replace('{…cnxml}', '').replace('{…MathML}', 'm:')`. -/
def ch06Tag (tag : String) : String :=
  pyReplace (pyReplace tag "\x7bhttp://cnx.rice.edu/cnxml\x7d" "")
    "\x7bhttp://www.w3.org/1998/Math/MathML\x7d" "m:"

/-- The ch06 italics variable-name list (no `P`/`Q`). -/
def varNames : List String := ["X", "Y", "Z", "x", "y", "z", "k", "n", "p", "q"]

mutual
/-- `convert_ch06.extract_text_with_math` (no XML escaping in this
variant; text and tails are appended raw). -/
def extract_text_with_math (e : Elem) (namespaces : List (String × String)) : String :=
  match e with
  | .mk _ _ tx ch _ =>
      (if tx != "" then tx else "") ++ etLoop ch namespaces

/-- The ch06 inline dispatch loop. -/
def etLoop : List Elem → List (String × String) → String
  | [], _ => ""
  | c :: rest, namespaces =>
      (let tag := ch06Tag c.tag
       if tag = "m:math" then "<m>" ++ convert_mathml_to_latex c ++ "</m>"
       else if tag = "emphasis" then
         let effect := c.get "effect" ""
         let content := extract_text_with_math c namespaces
         if effect = "italics" then
           if (pyStrip content).length = 1 || varNames.contains (pyStrip content) then
             "<m>" ++ content ++ "</m>"
           else "<em>" ++ content ++ "</em>"
         else if effect = "bold" then "<alert>" ++ content ++ "</alert>"
         else content
       else if tag = "term" then
         "<term>" ++ extract_text_with_math c namespaces ++ "</term>"
       else if tag = "list" then extract_text_with_math c namespaces
       else if tag = "sup" then
         "<sup>" ++ extract_text_with_math c namespaces ++ "</sup>"
       else if tag = "sub" then
         "<sub>" ++ extract_text_with_math c namespaces ++ "</sub>"
       else if tag = "code" then
         "<c>" ++ extract_text_with_math c namespaces ++ "</c>"
       else if tag = "link" then extract_text_with_math c namespaces
       else if tag = "newline" then strRepeat "\n" (pyInt (c.get "count" "1"))
       else extract_text_with_math c namespaces)
      ++ c.tail
      ++ etLoop rest namespaces
end

end Ch06

/-- The elements remaining after the flag-style scan of
`process_section`'s title handling: children are yielded once a child
equal to `t` has been seen, children equal to `t` themselves skipped. -/
def afterFlagged (t : Elem) : List Elem → Bool → List Elem
  | [], _ => []
  | c :: rest, found =>
      if c == t then afterFlagged t rest true
      else if found then c :: afterFlagged t rest found
      else afterFlagged t rest found

theorem sizeOf_afterFlagged_le (t : Elem) :
    ∀ (l : List Elem) (b : Bool), sizeOf (afterFlagged t l b) ≤ sizeOf l := by
  intro l
  induction l with
  | nil => intro b; simp [afterFlagged]
  | cons c rest ih =>
      intro b
      simp only [afterFlagged]
      have hs : sizeOf (c :: rest) = 1 + sizeOf c + sizeOf rest := by simp
      by_cases h : (c == t) = true
      · rw [if_pos h]
        have := ih true
        omega
      · rw [if_neg h]
        by_cases hb : b = true
        · rw [if_pos hb]
          have := ih b
          have hcs : sizeOf (c :: afterFlagged t rest b) =
              1 + sizeOf c + sizeOf (afterFlagged t rest b) := by simp
          omega
        · rw [if_neg hb]
          have := ih b
          omega

namespace Appendices

/-- The (large) leaf-text replacement dictionary of
`convert_appendices.convert_mathml_to_latex`, in insertion order. -/
def mathReplacements : List (String × String) :=
  [("μ", "\\mu"), ("σ", "\\sigma"), ("π", "\\pi"), ("θ", "\\theta"),
   ("−", "-"), ("–", "-"), ("≤", "\\leq"), ("≥", "\\geq"),
   ("≈", "\\approx"), ("∼", "\\sim"), ("~", "\\sim"),
   ("∞", "\\infty"), ("≠", "\\neq"), ("×", "\\times"),
   ("·", "\\cdot"), ("…", "\\ldots"), ("±", "\\pm"), ("α", "\\alpha"),
   ("β", "\\beta"), ("χ", "\\chi"), ("Σ", "\\Sigma"), ("λ", "\\lambda"),
   ("γ", "\\gamma"), ("Δ", "\\Delta"), ("δ", "\\delta"), ("ε", "\\varepsilon"),
   ("ρ", "\\rho"), ("ω", "\\omega"), ("Ω", "\\Omega"), ("√", "\\sqrt"),
   ("∑", "\\sum"), ("∫", "\\int"), ("∂", "\\partial"), ("∈", "\\in"),
   ("∉", "\\notin"), ("∀", "\\forall"), ("∃", "\\exists"), ("⊂", "\\subset"),
   ("⊃", "\\supset"), ("⊆", "\\subseteq"), ("⊇", "\\supseteq"), ("∪", "\\cup"),
   ("∩", "\\cap"), ("∅", "\\emptyset"), ("∝", "\\propto"), ("↔", "\\leftrightarrow"),
   ("→", "\\rightarrow"), ("←", "\\leftarrow"), ("⇒", "\\Rightarrow"),
   ("⇐", "\\Leftarrow"), ("⇔", "\\Leftrightarrow"), ("¬", "\\neg"),
   ("∧", "\\wedge"), ("∨", "\\vee"), ("°", "^\\circ")]

/-- The `ops` dictionary for appendix `mo` children. -/
def moOps : List (String × String) :=
  [("−", "-"), ("≤", "\\leq"), ("≥", "\\geq"), ("≈", "\\approx"),
   ("×", "\\times"), ("÷", "\\div"), ("∞", "\\infty"), ("≠", "\\neq"),
   ("±", "\\pm"), ("∓", "\\mp"), ("·", "\\cdot"), ("∘", "\\circ"),
   ("∑", "\\sum"), ("∏", "\\prod"), ("∫", "\\int"), ("√", "\\sqrt"),
   ("∂", "\\partial"), ("∇", "\\nabla"), ("∆", "\\Delta"),
   ("⊕", "\\oplus"), ("⊗", "\\otimes")]

/-- The delimiter table of the `mfenced` branch. -/
def fence_map : List (String × String) :=
  [("(", "\\left("), (")", "\\right)"),
   ("[", "\\left["), ("]", "\\right]"),
   ("\x7b", "\\left\\\x7b"), ("\x7d", "\\right\\\x7d"),
   ("|", "\\left|")]

mutual
/-- `convert_appendices.convert_mathml_to_latex`: the enhanced rewriter.
Constructs with fewer children than their arity are skipped entirely
(nothing is appended), unlike the ch06/ch09/ch11 rewriters. -/
def convert_mathml_to_latex (e : Elem) : String :=
  match e with
  | .mk _ _ tx ch _ =>
      let text := pyStrip tx
      if text != "" && ch.isEmpty then applyReplacements mathReplacements text
      else convertLoop ch

/-- The appendix child dispatch loop. -/
def convertLoop : List Elem → String
  | [] => ""
  | c :: rest =>
      (let ctag := localName c.tag
       let ctext := pyStrip c.text
       if ctag = "mi" then ctext
       else if ctag = "mn" then ctext
       else if ctag = "mo" then (if ctext != "" then lookupD moOps ctext else "")
       else if ctag = "msub" then msubChunk c
       else if ctag = "msup" then msupChunk c
       else if ctag = "msubsup" then msubsupChunk c
       else if ctag = "mfrac" then mfracChunk c
       else if ctag = "mrow" then convert_mathml_to_latex c
       else if ctag = "msqrt" then "\\sqrt\x7b" ++ convert_mathml_to_latex c ++ "\x7d"
       else if ctag = "mroot" then mrootChunk c
       else if ctag = "mtext" then
         (if ctext != "" then "\\text\x7b" ++ ctext ++ "\x7d" else "")
       else if ctag = "mspace" then "\\;"
       else if ctag = "mfenced" then
         let open_fence := c.get "open" "("
         let close_fence := c.get "close" ")"
         lookupD fence_map open_fence ++ convert_mathml_to_latex c ++
           lookupD fence_map close_fence
       else if ctag = "mtable" then
         "\\begin\x7bmatrix\x7d" ++ mtrRows c ++ "\\end\x7bmatrix\x7d"
       else if ctag = "mover" then moverChunk c
       else if ctag = "munder" then munderChunk c
       else if ctag = "munderover" then munderoverChunk c
       else convert_mathml_to_latex c)
      ++ pyStrip c.tail
      ++ convertLoop rest

/-- The appendix `msub` branch: skipped when fewer than two children. -/
def msubChunk : Elem → String
  | .mk _ _ _ ch _ =>
      match ch with
      | a :: b :: _ =>
          convert_mathml_to_latex a ++ "_\x7b" ++ convert_mathml_to_latex b ++ "\x7d"
      | _ => ""

/-- The appendix `msup` branch: skipped when fewer than two children. -/
def msupChunk : Elem → String
  | .mk _ _ _ ch _ =>
      match ch with
      | a :: b :: _ =>
          convert_mathml_to_latex a ++ "^\x7b" ++ convert_mathml_to_latex b ++ "\x7d"
      | _ => ""

/-- The appendix `msubsup` branch: skipped when fewer than three
children. -/
def msubsupChunk : Elem → String
  | .mk _ _ _ ch _ =>
      match ch with
      | a :: b :: c :: _ =>
          convert_mathml_to_latex a ++ "_\x7b" ++ convert_mathml_to_latex b ++
            "\x7d^\x7b" ++ convert_mathml_to_latex c ++ "\x7d"
      | _ => ""

/-- The appendix `mfrac` branch: skipped when fewer than two children. -/
def mfracChunk : Elem → String
  | .mk _ _ _ ch _ =>
      match ch with
      | a :: b :: _ =>
          "\\frac\x7b" ++ convert_mathml_to_latex a ++ "\x7d\x7b" ++
            convert_mathml_to_latex b ++ "\x7d"
      | _ => ""

/-- The appendix `mroot` branch: skipped when fewer than two children. -/
def mrootChunk : Elem → String
  | .mk _ _ _ ch _ =>
      match ch with
      | a :: b :: _ =>
          "\\sqrt[" ++ convert_mathml_to_latex b ++ "]\x7b" ++
            convert_mathml_to_latex a ++ "\x7d"
      | _ => ""

/-- The appendix `mover` branch with accent selection. -/
def moverChunk : Elem → String
  | .mk _ _ _ ch _ =>
      match ch with
      | a :: b :: _ =>
          let base := convert_mathml_to_latex a
          let accent := convert_mathml_to_latex b
          if accent = "¯" then "\\overline\x7b" ++ base ++ "\x7d"
          else if accent = "^" then "\\hat\x7b" ++ base ++ "\x7d"
          else if accent = "~" then "\\tilde\x7b" ++ base ++ "\x7d"
          else "\\overset\x7b" ++ accent ++ "\x7d\x7b" ++ base ++ "\x7d"
      | _ => ""

/-- The appendix `munder` branch. -/
def munderChunk : Elem → String
  | .mk _ _ _ ch _ =>
      match ch with
      | a :: b :: _ =>
          "\\underset\x7b" ++ convert_mathml_to_latex b ++ "\x7d\x7b" ++
            convert_mathml_to_latex a ++ "\x7d"
      | _ => ""

/-- The appendix `munderover` branch. -/
def munderoverChunk : Elem → String
  | .mk _ _ _ ch _ =>
      match ch with
      | a :: b :: c :: _ =>
          convert_mathml_to_latex a ++ "_\x7b" ++ convert_mathml_to_latex b ++
            "\x7d^\x7b" ++ convert_mathml_to_latex c ++ "\x7d"
      | _ => ""

/-- Rows of an appendix `mtable` (only `mtr` children produce rows). -/
def mtrRows : Elem → String
  | .mk _ _ _ rows _ => mtrRowsLoop rows

/-- The row loop of the appendix `mtable` branch. -/
def mtrRowsLoop : List Elem → String
  | [] => ""
  | r :: rest =>
      (if localName r.tag = "mtr" then
         strJoinSep " & " (mtrCellsOf r) ++ "\\\\"
       else "")
      ++ mtrRowsLoop rest

/-- Cells of one `mtr` row. -/
def mtrCellsOf : Elem → List String
  | .mk _ _ _ cells _ => mtrCells cells

/-- Converted cells of an appendix row. -/
def mtrCells : List Elem → List String
  | [] => []
  | c :: rest => convert_mathml_to_latex c :: mtrCells rest
end

/-- `convert_appendices.escape_xml`: entities are first unescaped and the
five reserved characters are then re-escaped, guarding against
double-escaping already-escaped input. -/
def escape_xml (text : String) : String :=
  if text = "" then ""
  else
    let t := pyReplace text "&amp;" "&"
    let t := pyReplace t "&lt;" "<"
    let t := pyReplace t "&gt;" ">"
    let t := pyReplace t "&quot;" "\""
    let t := pyReplace t "&apos;" "\x27"
    let t := pyReplace t "&" "&amp;"
    let t := pyReplace t "<" "&lt;"
    let t := pyReplace t ">" "&gt;"
    let t := pyReplace t "\"" "&quot;"
    pyReplace t "\x27" "&apos;"

/-- CPython's `id(elem)` (used only to synthesize fallback identifiers);
modelled by a deterministic stand-in, since runtime object identity has
no shallow-embedding counterpart.  None of the verified claims depend on
synthesized identifiers. -/
def pyObjectId (e : Elem) : String := toString (descendants e).length

/-- `convert_appendices.process_math`. -/
def process_math (elem : Elem) (_namespaces : List (String × String)) : String :=
  let display := elem.get "display" "inline"
  match findDesc (mml "math") elem with
  | some math_elem =>
      let latex := convert_mathml_to_latex math_elem
      if display = "block" then "<me>" ++ latex ++ "</me>"
      else "<m>" ++ latex ++ "</m>"
  | none => ""

/-- Python `src.split('/')[-1]`. -/
def afterLastSlash (s : String) : String :=
  String.mk ((s.toList.reverse.takeWhile (· ≠ '/')).reverse)

/-- `convert_appendices.process_image`. -/
def process_image (elem : Elem) (_namespaces : List (String × String)) : String :=
  let src := elem.get "src" ""
  let width := elem.get "width" ""
  let filename := if src != "" then afterLastSlash src else ""
  let attrs : List String :=
    if width != "" then
      (if !containsSub width "%" then ["width=\"" ++ width ++ "%\""]
       else ["width=\"" ++ width ++ "\""])
    else []
  let attr_str := strJoinSep " " attrs
  if attr_str != "" then
    "<image source=\"../media/" ++ filename ++ "\" " ++ attr_str ++ "/>"
  else
    "<image source=\"../media/" ++ filename ++ "\"/>"

/-- `convert_appendices.process_media`. -/
def process_media (elem : Elem) (namespaces : List (String × String)) : String :=
  match findChildT (cnx "image") elem with
  | some image_elem => process_image image_elem namespaces
  | none => ""

/-- The inline tag list of `process_element_content`'s `is_all_inline`
test. -/
def inline_tags : List String :=
  ["link", "emphasis", "math", "sub", "sup", "code", "term", "quote",
   "foreign", "newline", "space", "media", "image"]

/-- The `marker_map` of the appendix `process_list`. -/
def marker_map : List (String × String) :=
  [("upper-alpha", "A"), ("lower-alpha", "a"),
   ("upper-roman", "I"), ("lower-roman", "i"), ("arabic", "1")]

set_option maxHeartbeats 1600000 in
mutual
/-- `convert_appendices.process_mixed_content`: inline mode strips text
fragments and joins the collected parts with single spaces; block mode
keeps text verbatim and concatenates. -/
def process_mixed_content (elem : Elem) (namespaces : List (String × String))
    (inline : Bool) : String :=
  have _hc : sizeOf elem.children < sizeOf elem := sizeOf_children_lt elem
  let result :=
    (if elem.text != "" then
       (let text := if inline then pyStrip elem.text else elem.text
        if text != "" then [escape_xml text] else [])
     else []) ++ mcLoop elem.children namespaces inline
  if inline then strJoinSep " " result else joinAll result
termination_by sizeOf elem * 4

/-- The child dispatch loop of `process_mixed_content`; an unclassified
tag falls back to the element's flattened, trimmed, escaped `itertext`. -/
def mcLoop : List Elem → List (String × String) → Bool → List String
  | [], _, _ => []
  | child :: rest, namespaces, inline =>
      (let tag := localName child.tag
       if tag = "emphasis" then [process_emphasis child namespaces]
       else if tag = "link" then [process_link child namespaces]
       else if tag = "math" then [process_math child namespaces]
       else if tag = "sub" then [process_sub child namespaces]
       else if tag = "sup" then [process_sup child namespaces]
       else if tag = "code" then [process_code child namespaces]
       else if tag = "term" then [process_term child namespaces]
       else if tag = "quote" then [process_quote child namespaces]
       else if tag = "foreign" then [process_foreign child namespaces]
       else if tag = "newline" then [if inline then "\n" else "<br/>"]
       else if tag = "space" then [" "]
       else if tag = "list" then
         [if inline then "\n" ++ process_list child namespaces 0
          else process_list child namespaces 0]
       else if tag = "media" then [process_media child namespaces]
       else if tag = "image" then [process_image child namespaces]
       else
         (let text := pyStrip (itertext child)
          if text != "" then [escape_xml text] else []))
      ++ (if child.tail != "" then
            (let tail := if inline then pyStrip child.tail else child.tail
             if tail != "" then [escape_xml tail] else [])
          else [])
      ++ mcLoop rest namespaces inline
termination_by l _ _ => sizeOf l * 4

/-- `convert_appendices.process_emphasis`. -/
def process_emphasis (elem : Elem) (namespaces : List (String × String)) : String :=
  let effect := elem.get "effect" "italics"
  let text := process_mixed_content elem namespaces true
  if effect = "bold" || effect = "strong" then "<term>" ++ text ++ "</term>"
  else if effect = "italics" || effect = "italic" then "<em>" ++ text ++ "</em>"
  else if effect = "underline" then "<em>" ++ text ++ "</em>"
  else "<em>" ++ text ++ "</em>"
termination_by sizeOf elem * 4 + 1

/-- `convert_appendices.process_link`. -/
def process_link (elem : Elem) (namespaces : List (String × String)) : String :=
  let url := elem.get "url" ""
  let document := elem.get "document" ""
  let target_id := elem.get "target-id" ""
  let text := process_mixed_content elem namespaces true
  if url != "" then "<url href=\"" ++ url ++ "\">" ++ text ++ "</url>"
  else if document != "" then
    (if target_id != "" then
       "<xref ref=\"" ++ document ++ "-" ++ target_id ++ "\">" ++ text ++ "</xref>"
     else "<xref ref=\"" ++ document ++ "\">" ++ text ++ "</xref>")
  else if target_id != "" then "<xref ref=\"" ++ target_id ++ "\">" ++ text ++ "</xref>"
  else text
termination_by sizeOf elem * 4 + 1

/-- `convert_appendices.process_sub`. -/
def process_sub (elem : Elem) (namespaces : List (String × String)) : String :=
  "<m>_\x7b" ++ process_mixed_content elem namespaces true ++ "\x7d</m>"
termination_by sizeOf elem * 4 + 1

/-- `convert_appendices.process_sup`. -/
def process_sup (elem : Elem) (namespaces : List (String × String)) : String :=
  "<m>^\x7b" ++ process_mixed_content elem namespaces true ++ "\x7d</m>"
termination_by sizeOf elem * 4 + 1

/-- `convert_appendices.process_code`. -/
def process_code (elem : Elem) (namespaces : List (String × String)) : String :=
  "<c>" ++ process_mixed_content elem namespaces true ++ "</c>"
termination_by sizeOf elem * 4 + 1

/-- `convert_appendices.process_term`. -/
def process_term (elem : Elem) (namespaces : List (String × String)) : String :=
  "<term>" ++ process_mixed_content elem namespaces true ++ "</term>"
termination_by sizeOf elem * 4 + 1

/-- `convert_appendices.process_quote`. -/
def process_quote (elem : Elem) (namespaces : List (String × String)) : String :=
  "<q>" ++ process_mixed_content elem namespaces true ++ "</q>"
termination_by sizeOf elem * 4 + 1

/-- `convert_appendices.process_foreign`. -/
def process_foreign (elem : Elem) (namespaces : List (String × String)) : String :=
  "<foreign>" ++ process_mixed_content elem namespaces true ++ "</foreign>"
termination_by sizeOf elem * 4 + 1

/-- `convert_appendices.process_list`. -/
def process_list (elem : Elem) (namespaces : List (String × String))
    (indent : Nat) : String :=
  let list_type := elem.get "list-type" "bulleted"
  let number_style := elem.get "number-style" "arabic"
  let indent_str := spaces indent
  let title :=
    match findChildT (cnx "title") elem with
    | some title_elem => escape_xml title_elem.text
    | none => ""
  let lines :=
    (if title != "" then [indent_str ++ "<p><title>" ++ title ++ "</title></p>"] else [])
  let lines := lines ++
    (if list_type = "bulleted" then [indent_str ++ "<ul>"]
     else
       let marker := (marker_map.lookup number_style).getD "1"
       if marker != "1" then [indent_str ++ "<ol marker=\"" ++ marker ++ "\">"]
       else [indent_str ++ "<ol>"])
  have _h : sizeOf (childrenT (cnx "item") elem) < sizeOf elem := sizeOf_childrenT_lt _ _
  let lines := lines ++ liLoop (childrenT (cnx "item") elem) namespaces indent
  let lines := lines ++
    (if list_type = "bulleted" then [indent_str ++ "</ul>"] else [indent_str ++ "</ol>"])
  strJoinSep "\n" lines
termination_by sizeOf elem * 4 + 1

/-- The item loop of the appendix `process_list`. -/
def liLoop : List Elem → List (String × String) → Nat → List String
  | [], _, _ => []
  | item :: rest, namespaces, indent =>
      let indent_str := spaces indent
      let item_content := process_element_content item namespaces (indent + 4) ["title"]
      [indent_str ++ "  <li>"]
        ++ (if pyStrip item_content != "" then [item_content] else [])
        ++ [indent_str ++ "  </li>"]
        ++ liLoop rest namespaces indent
termination_by l _ _ => sizeOf l * 4

/-- `convert_appendices.process_element_content`: wraps pure-inline or
text-only content in a paragraph, otherwise renders block children. -/
def process_element_content (elem : Elem) (namespaces : List (String × String))
    (indent : Nat) (skip_tags : List String) : String :=
  let indent_str := spaces indent
  let has_direct_text := elem.text != "" && pyStrip elem.text != ""
  let children := elem.children.filter (fun c => !skip_tags.contains (localName c.tag))
  let is_all_inline := children.all (fun child => inline_tags.contains (localName child.tag))
  if (has_direct_text || is_all_inline) && !children.isEmpty then
    let para_content := process_mixed_content elem namespaces true
    if pyStrip para_content != "" then
      strJoinSep "\n" [indent_str ++ "<p>", indent_str ++ "  " ++ para_content,
        indent_str ++ "</p>"]
    else ""
  else if has_direct_text && children.isEmpty then
    strJoinSep "\n" [indent_str ++ "<p>",
      indent_str ++ "  " ++ escape_xml (pyStrip elem.text), indent_str ++ "</p>"]
  else
    have _h : sizeOf elem.children < sizeOf elem := sizeOf_children_lt elem
    let lines :=
      (if has_direct_text then
         [indent_str ++ "<p>", indent_str ++ "  " ++ escape_xml (pyStrip elem.text),
          indent_str ++ "</p>"]
       else []) ++ ecLoop elem.children namespaces indent skip_tags
    strJoinSep "\n" lines
termination_by sizeOf elem * 4 + 1

/-- The block-child loop of `process_element_content` (skipped tags are
passed over entirely, including their tail text). -/
def ecLoop : List Elem → List (String × String) → Nat → List String → List String
  | [], _, _, _ => []
  | child :: rest, namespaces, indent, skip_tags =>
      let indent_str := spaces indent
      let tag := localName child.tag
      if skip_tags.contains tag then ecLoop rest namespaces indent skip_tags
      else
        (if tag = "para" then
           let para_content := process_mixed_content child namespaces true
           if pyStrip para_content != "" then
             (match findChildT (cnx "title") child with
              | some title_elem =>
                  have _ha : sizeOf (afterFirst title_elem child.children) ≤ sizeOf child.children :=
                    sizeOf_afterFirst_le _ _
                  have _hb : sizeOf child.children < sizeOf child := sizeOf_children_lt child
                  let title_text := escape_xml title_elem.text
                  let remaining :=
                    (if title_elem.tail != "" then [escape_xml (pyStrip title_elem.tail)] else [])
                      ++ remParts (afterFirst title_elem child.children) namespaces
                  [indent_str ++ "<p>", indent_str ++ "  <title>" ++ title_text ++ "</title>"]
                    ++ (if !remaining.isEmpty then
                          [indent_str ++ "  " ++ strJoinSep " " remaining]
                        else [])
                    ++ [indent_str ++ "</p>"]
              | none =>
                  [indent_str ++ "<p>", indent_str ++ "  " ++ para_content,
                   indent_str ++ "</p>"])
           else []
         else if tag = "section" then [process_section child namespaces indent 0]
         else if tag = "list" then [process_list child namespaces indent]
         else if tag = "table" then [process_table child namespaces indent]
         else if tag = "figure" then [process_figure child namespaces indent]
         else if tag = "note" then [process_note child namespaces indent]
         else if tag = "exercise" then [process_exercise child namespaces indent]
         else if tag = "media" then
           (let media_markup := process_media child namespaces
            if media_markup != "" then
              [indent_str ++ "<p>", indent_str ++ "  " ++ media_markup, indent_str ++ "</p>"]
            else [])
         else if tag = "equation" then
           (match findDesc (mml "math") child with
            | some math_elem =>
                [indent_str ++ "<me>" ++ convert_mathml_to_latex math_elem ++ "</me>"]
            | none => [])
         else if tag = "code" && child.get "display" "" = "block" then
           [indent_str ++ "<pre>", escape_xml (itertext child), indent_str ++ "</pre>"]
         else if tag = "preformat" then
           [indent_str ++ "<pre>", escape_xml (itertext child), indent_str ++ "</pre>"]
         else [])
        ++ (if child.tail != "" && pyStrip child.tail != "" then
              [indent_str ++ "<p>", indent_str ++ "  " ++ escape_xml (pyStrip child.tail),
               indent_str ++ "</p>"]
            else [])
        ++ ecLoop rest namespaces indent skip_tags
termination_by l _ _ _ => sizeOf l * 4

/-- The inline rendering of the elements following an in-paragraph title. -/
def remParts : List Elem → List (String × String) → List String
  | [], _ => []
  | x :: rest, namespaces =>
      process_mixed_content x namespaces true :: remParts rest namespaces
termination_by l _ => sizeOf l * 4

/-- `convert_appendices.process_section` (recursive; nested sections
become subsections). -/
def process_section (elem : Elem) (namespaces : List (String × String))
    (indent : Nat) (depth : Nat) : String :=
  let indent_str := spaces indent
  let section_id := elem.get "id" ("section-" ++ pyObjectId elem)
  let title :=
    match findChildT (cnx "title") elem with
    | some title_elem => escape_xml title_elem.text
    | none => ""
  let lines :=
    if depth = 0 then [indent_str ++ "<section xml:id=\"" ++ section_id ++ "\">"]
    else [indent_str ++ "<subsection xml:id=\"" ++ section_id ++ "\">"]
  let lines := lines ++
    (if title != "" then [indent_str ++ "  <title>" ++ title ++ "</title>"] else [])
  have _h : sizeOf elem.children < sizeOf elem := sizeOf_children_lt elem
  let lines := lines ++ secLoop elem.children namespaces indent depth
  let lines := lines ++
    (if depth = 0 then [indent_str ++ "</section>"] else [indent_str ++ "</subsection>"])
  strJoinSep "\n" lines
termination_by sizeOf elem * 4 + 1

/-- The child loop of `process_section` (no tail handling here). -/
def secLoop : List Elem → List (String × String) → Nat → Nat → List String
  | [], _, _, _ => []
  | child :: rest, namespaces, indent, depth =>
      let indent_str := spaces indent
      let tag := localName child.tag
      (if tag = "title" then []
       else if tag = "section" then
         [process_section child namespaces (indent + 2) (depth + 1)]
       else if tag = "para" then
         (let para_content := process_mixed_content child namespaces true
          if pyStrip para_content != "" then
            (match findChildT (cnx "title") child with
             | some para_title_elem =>
                 have _ha : sizeOf (afterFlagged para_title_elem child.children false) ≤
                     sizeOf child.children := sizeOf_afterFlagged_le _ _ _
                 have _hb : sizeOf child.children < sizeOf child := sizeOf_children_lt child
                 let para_title := escape_xml para_title_elem.text
                 let remaining_content :=
                   (if para_title_elem.tail != "" then
                      [escape_xml (pyStrip para_title_elem.tail)]
                    else [])
                     ++ remParts (afterFlagged para_title_elem child.children false) namespaces
                 [indent_str ++ "  <p>",
                  indent_str ++ "    <title>" ++ para_title ++ "</title>"]
                   ++ (if !remaining_content.isEmpty then
                         [indent_str ++ "    " ++ strJoinSep " " remaining_content]
                       else [])
                   ++ [indent_str ++ "  </p>"]
             | none =>
                 [indent_str ++ "  <p>", indent_str ++ "    " ++ para_content,
                  indent_str ++ "  </p>"])
          else [])
       else if tag = "list" then [process_list child namespaces (indent + 2)]
       else if tag = "table" then [process_table child namespaces (indent + 2)]
       else if tag = "figure" then [process_figure child namespaces (indent + 2)]
       else if tag = "note" then [process_note child namespaces (indent + 2)]
       else if tag = "exercise" then [process_exercise child namespaces (indent + 2)]
       else if tag = "media" then
         (let media_markup := process_media child namespaces
          if media_markup != "" then
            [indent_str ++ "  <p>", indent_str ++ "    " ++ media_markup,
             indent_str ++ "  </p>"]
          else [])
       else if tag = "equation" then
         (match findDesc (mml "math") child with
          | some math_elem =>
              [indent_str ++ "  <me>" ++ convert_mathml_to_latex math_elem ++ "</me>"]
          | none => [])
       else if tag = "code" && child.get "display" "" = "block" then
         [indent_str ++ "  <pre>", indent_str ++ "    " ++ escape_xml (itertext child),
          indent_str ++ "  </pre>"]
       else if tag = "preformat" then
         [indent_str ++ "  <pre>", indent_str ++ "    " ++ escape_xml (itertext child),
          indent_str ++ "  </pre>"]
       else [])
      ++ secLoop rest namespaces indent depth
termination_by l _ _ _ => sizeOf l * 4

/-- `convert_appendices.process_table` (returns `""` when there is no
`tgroup`). -/
def process_table (elem : Elem) (namespaces : List (String × String))
    (indent : Nat) : String :=
  let indent_str := spaces indent
  let title :=
    match hT : findChildT (cnx "title") elem with
    | some title_elem =>
        have _h : sizeOf title_elem < sizeOf elem := sizeOf_lt_of_findChildT hT
        process_mixed_content title_elem namespaces true
    | none => ""
  let caption :=
    match hC : findChildT (cnx "caption") elem with
    | some caption_elem =>
        have _h : sizeOf caption_elem < sizeOf elem := sizeOf_lt_of_findChildT hC
        process_mixed_content caption_elem namespaces true
    | none => ""
  match hG : findChildT (cnx "tgroup") elem with
  | none => ""
  | some tgroup =>
      have _hg : sizeOf tgroup < sizeOf elem := sizeOf_lt_of_findChildT hG
      let table_id := elem.get "id" ("table-" ++ pyObjectId elem)
      let lines := [indent_str ++ "<table xml:id=\"" ++ table_id ++ "\">"]
      let lines := lines ++
        (if title != "" then [indent_str ++ "  <title>" ++ title ++ "</title>"]
         else if caption != "" then [indent_str ++ "  <title>" ++ caption ++ "</title>"]
         else [])
      let lines := lines ++ [indent_str ++ "  <tabular>"]
      let lines := lines ++
        (match hH : findChildT (cnx "thead") tgroup with
         | some thead =>
             have _h1 : sizeOf thead < sizeOf tgroup := sizeOf_lt_of_findChildT hH
             have _h2 : sizeOf (childrenT (cnx "row") thead) < sizeOf thead :=
               sizeOf_childrenT_lt _ _
             rowsLoop true (childrenT (cnx "row") thead) namespaces indent
         | none => [])
      let lines := lines ++
        (match hB : findChildT (cnx "tbody") tgroup with
         | some tbody =>
             have _h1 : sizeOf tbody < sizeOf tgroup := sizeOf_lt_of_findChildT hB
             have _h2 : sizeOf (childrenT (cnx "row") tbody) < sizeOf tbody :=
               sizeOf_childrenT_lt _ _
             rowsLoop false (childrenT (cnx "row") tbody) namespaces indent
         | none => [])
      let lines := lines ++ [indent_str ++ "  </tabular>", indent_str ++ "</table>"]
      strJoinSep "\n" lines
termination_by sizeOf elem * 4 + 1

/-- The row loop of the appendix `process_table`. -/
def rowsLoop (header : Bool) : List Elem → List (String × String) → Nat → List String
  | [], _, _ => []
  | row :: rest, namespaces, indent =>
      let indent_str := spaces indent
      have _h : sizeOf (childrenT (cnx "entry") row) < sizeOf row := sizeOf_childrenT_lt _ _
      let cells := entriesParts (childrenT (cnx "entry") row) namespaces
      (if header then [indent_str ++ "    <row header=\"yes\">"]
       else [indent_str ++ "    <row>"])
        ++ cells.map (fun cell => indent_str ++ "      <cell>" ++ cell ++ "</cell>")
        ++ [indent_str ++ "    </row>"]
        ++ rowsLoop header rest namespaces indent
termination_by l _ _ => sizeOf l * 4

/-- The cell texts of one row. -/
def entriesParts : List Elem → List (String × String) → List String
  | [], _ => []
  | entry :: rest, namespaces =>
      (let cell_text := process_mixed_content entry namespaces true
       if cell_text != "" then cell_text else "")
        :: entriesParts rest namespaces
termination_by l _ => sizeOf l * 4

/-- `convert_appendices.process_figure`. -/
def process_figure (elem : Elem) (namespaces : List (String × String))
    (indent : Nat) : String :=
  let indent_str := spaces indent
  let figure_id := elem.get "id" ("figure-" ++ pyObjectId elem)
  let caption_text :=
    match hC : findChildT (cnx "caption") elem with
    | some caption_elem =>
        have _h : sizeOf caption_elem < sizeOf elem := sizeOf_lt_of_findChildT hC
        process_mixed_content caption_elem namespaces true
    | none => ""
  let title_text :=
    match findChildT (cnx "title") elem with
    | some title_elem => escape_xml title_elem.text
    | none => ""
  let lines := [indent_str ++ "<figure xml:id=\"" ++ figure_id ++ "\">"]
  let lines := lines ++
    (if caption_text != "" || title_text != "" then
       [indent_str ++ "  <caption>" ++
          (if caption_text != "" then caption_text else title_text) ++ "</caption>"]
     else [])
  let lines := lines ++
    (match findChildT (cnx "media") elem with
     | some media_elem =>
         (let image_markup := process_media media_elem namespaces
          if image_markup != "" then [indent_str ++ "  " ++ image_markup] else [])
     | none => [])
  have _h2 : sizeOf (childrenT (cnx "subfigure") elem) < sizeOf elem :=
    sizeOf_childrenT_lt _ _
  let lines := lines ++ subfigLoop (childrenT (cnx "subfigure") elem) namespaces (indent + 2)
  let lines := lines ++ [indent_str ++ "</figure>"]
  strJoinSep "\n" lines
termination_by sizeOf elem * 4 + 1

/-- The subfigure loop of `process_figure`. -/
def subfigLoop : List Elem → List (String × String) → Nat → List String
  | [], _, _ => []
  | subfig :: rest, namespaces, indent =>
      process_figure subfig namespaces indent :: subfigLoop rest namespaces indent
termination_by l _ _ => sizeOf l * 4

/-- `convert_appendices.process_note`. -/
def process_note (elem : Elem) (namespaces : List (String × String))
    (indent : Nat) : String :=
  let indent_str := spaces indent
  let note_id := elem.get "id" ("note-" ++ pyObjectId elem)
  let title :=
    match findChildT (cnx "title") elem with
    | some title_elem => escape_xml title_elem.text
    | none => ""
  let label :=
    match findChildT (cnx "label") elem with
    | some label_elem => escape_xml label_elem.text
    | none => ""
  let lines := [indent_str ++ "<note xml:id=\"" ++ note_id ++ "\">"]
  let lines := lines ++
    (if title != "" then [indent_str ++ "  <title>" ++ title ++ "</title>"]
     else if label != "" then [indent_str ++ "  <title>" ++ label ++ "</title>"]
     else [])
  let content_lines := process_element_content elem namespaces (indent + 2) ["title", "label"]
  let lines := lines ++ (if pyStrip content_lines != "" then [content_lines] else [])
  let lines := lines ++ [indent_str ++ "</note>"]
  strJoinSep "\n" lines
termination_by sizeOf elem * 4 + 2

/-- `convert_appendices.process_exercise`. -/
def process_exercise (elem : Elem) (namespaces : List (String × String))
    (indent : Nat) : String :=
  let indent_str := spaces indent
  let exercise_id := elem.get "id" ("exercise-" ++ pyObjectId elem)
  let lines := [indent_str ++ "<exercise xml:id=\"" ++ exercise_id ++ "\">"]
  let lines := lines ++
    (match hP : findChildT (cnx "problem") elem with
     | some problem_elem =>
         have _h : sizeOf problem_elem < sizeOf elem := sizeOf_lt_of_findChildT hP
         let problem_content := process_element_content problem_elem namespaces (indent + 4) []
         [indent_str ++ "  <statement>"]
           ++ (if pyStrip problem_content != "" then [problem_content] else [])
           ++ [indent_str ++ "  </statement>"]
     | none => [])
  let lines := lines ++
    (match hS : findChildT (cnx "solution") elem with
     | some solution_elem =>
         have _h : sizeOf solution_elem < sizeOf elem := sizeOf_lt_of_findChildT hS
         let solution_content := process_element_content solution_elem namespaces (indent + 4) []
         [indent_str ++ "  <solution>"]
           ++ (if pyStrip solution_content != "" then [solution_content] else [])
           ++ [indent_str ++ "  </solution>"]
     | none => [])
  let lines := lines ++ [indent_str ++ "</exercise>"]
  strJoinSep "\n" lines
termination_by sizeOf elem * 4 + 1
end

end Appendices

set_option maxHeartbeats 1600000

theorem str_append_nil (s : String) : s ++ "" = s := by
  cases s with
  | mk data =>
      show String.mk (data ++ []) = String.mk data
      rw [List.append_nil]

theorem str_nil_append (s : String) : "" ++ s = s := by
  cases s with
  | mk data => rfl

theorem str_append_assoc (a b c : String) : a ++ b ++ c = a ++ (b ++ c) := by
  cases a with
  | mk da =>
    cases b with
    | mk db =>
      cases c with
      | mk dc =>
          show String.mk (da ++ db ++ dc) = String.mk (da ++ (db ++ dc))
          rw [List.append_assoc]

/-- C8: the claim says the escaping function never re-escapes
already-escaped input; the ch06/ch09/ch11 `xml_escape` does re-escape it:
on the already-escaped input `&amp;` it produces the double-escaped
`&amp;amp;`. -/
theorem C8_counterexample :
    Ch06Full.xml_escape "&amp;" = "&amp;amp;" ∧
      Ch06Full.xml_escape "&amp;" ≠ "&amp;" := by
  decide

/-- C8 (amended): both escaping functions single-pass escape `&`, `<`,
`>`; the appendix `escape_xml` additionally unescapes first and so leaves
every already-escaped entity unchanged, while the ch06/ch09/ch11
`xml_escape` has no such guard and double-escapes `&amp;` to
`&amp;amp;`. -/
theorem C8_escaping :
    (∀ e ∈ ["&amp;", "&lt;", "&gt;", "&quot;", "&apos;"],
        Appendices.escape_xml e = e) ∧
    Appendices.escape_xml "&" = "&amp;" ∧
    Appendices.escape_xml "<" = "&lt;" ∧
    Appendices.escape_xml ">" = "&gt;" ∧
    Ch06Full.xml_escape "&" = "&amp;" ∧
    Ch06Full.xml_escape "<" = "&lt;" ∧
    Ch06Full.xml_escape ">" = "&gt;" ∧
    Ch06Full.xml_escape "&amp;" = "&amp;amp;" := by
  decide

/-- C8 witness: the amended theorem applied to the concrete
already-escaped entity `&amp;`. -/
theorem C8_escaping_witness : Appendices.escape_xml "&amp;" = "&amp;" :=
  C8_escaping.1 "&amp;" (by decide)

/-- C2: the claim says a fraction node with exactly one child renders
with an empty denominator; the appendix rewriter instead skips the whole
construct, emitting nothing. -/
theorem C2_counterexample :
    Appendices.convert_mathml_to_latex
        (.mk (mml "math") [] ""
          [.mk (mml "mfrac") [] "" [.mk (mml "mn") [] "1" [] ""] ""] "") = "" ∧
    Appendices.convert_mathml_to_latex
        (.mk (mml "math") [] ""
          [.mk (mml "mfrac") [] "" [.mk (mml "mn") [] "1" [] ""] ""] "") ≠
      "\\frac\x7b1\x7d\x7b\x7d" := by
  decide

/-- C2 (amended): in the ch06/ch09/ch11 rewriters a two-child fraction
renders as `\frac{num}{den}` over the recursively rewritten children and
a one-child fraction renders with an empty denominator; the appendix
rewriter renders the two-child template identically but contributes
nothing at all for a fraction with fewer than two children (still
without raising). -/
theorem C2_fraction :
    (∀ (x y : Elem) (a : List (String × String)) (ftl : String),
        Ch06Full.convert_mathml_to_latex
            (.mk (mml "math") [] "" [.mk (mml "mfrac") a "" [x, y] ftl] "")
          = "\\frac\x7b" ++ Ch06Full.convert_mathml_to_latex x ++ "\x7d\x7b" ++
              Ch06Full.convert_mathml_to_latex y ++ "\x7d" ++ pyStrip ftl) ∧
    (∀ (x : Elem) (a : List (String × String)) (ftl : String),
        Ch06Full.convert_mathml_to_latex
            (.mk (mml "math") [] "" [.mk (mml "mfrac") a "" [x] ftl] "")
          = "\\frac\x7b" ++ Ch06Full.convert_mathml_to_latex x ++ "\x7d\x7b\x7d" ++
              pyStrip ftl) ∧
    (∀ (x y : Elem) (a : List (String × String)) (ftl : String),
        Appendices.convert_mathml_to_latex
            (.mk (mml "math") [] "" [.mk (mml "mfrac") a "" [x, y] ftl] "")
          = "\\frac\x7b" ++ Appendices.convert_mathml_to_latex x ++ "\x7d\x7b" ++
              Appendices.convert_mathml_to_latex y ++ "\x7d" ++ pyStrip ftl) ∧
    (∀ (x : Elem) (a : List (String × String)) (ftl : String),
        Appendices.convert_mathml_to_latex
            (.mk (mml "math") [] "" [.mk (mml "mfrac") a "" [x] ftl] "")
          = pyStrip ftl) := by
  refine ⟨fun x y a ftl => ?_, fun x a ftl => ?_, fun x y a ftl => ?_, fun x a ftl => ?_⟩
  · simp +decide [Ch06Full.convert_mathml_to_latex, Ch06Full.convertLoop,
      Ch06Full.mfracChunk, Elem.tag, Elem.text, Elem.tail,
      str_append_nil, str_append_assoc]
  · simp +decide [Ch06Full.convert_mathml_to_latex, Ch06Full.convertLoop,
      Ch06Full.mfracChunk, Elem.tag, Elem.text, Elem.tail,
      str_append_nil, str_append_assoc]
  · simp +decide [Appendices.convert_mathml_to_latex, Appendices.convertLoop,
      Appendices.mfracChunk, Elem.tag, Elem.text, Elem.tail,
      str_append_nil, str_append_assoc]
  · simp +decide [Appendices.convert_mathml_to_latex, Appendices.convertLoop,
      Appendices.mfracChunk, Elem.tag, Elem.text, Elem.tail,
      str_append_nil, str_nil_append, str_append_assoc]

theorem pyStrip_empty : pyStrip "" = "" := rfl

theorem ite_xml_escape (s : String) :
    (if (s != "") = true then Ch06Full.xml_escape s else "") = Ch06Full.xml_escape s := by
  by_cases h : s = ""
  · subst h; decide
  · simp [h]

theorem ite_xml_escape_flip (s : String) :
    (if s = "" then "" else Ch06Full.xml_escape s) = Ch06Full.xml_escape s := by
  by_cases h : s = ""
  · subst h; decide
  · simp [h]

/-- C1: the claim says every under-arity node renders its missing
operands as the empty string; the appendix rewriter instead drops the
whole construct: a one-child `msub` contributes nothing, not `3_{}`. -/
theorem C1_counterexample :
    Appendices.convert_mathml_to_latex
        (.mk (mml "math") [] ""
          [.mk (mml "msub") [] "" [.mk (mml "mn") [] "3" [] ""] ""] "") = "" ∧
    Appendices.convert_mathml_to_latex
        (.mk (mml "math") [] ""
          [.mk (mml "msub") [] "" [.mk (mml "mn") [] "3" [] ""] ""] "") ≠
      "3_\x7b\x7d" := by
  decide

/-- C1 (amended): every variant of the math rewriter is total (each is a
total function here by construction).  In the ch06/ch09/ch11 variants a
node with fewer children than its arity renders the missing operands as
empty strings (shown for a one-child `msub`); a tag absent from the
dispatch falls back to recursing into the child and concatenating, and a
childless node with text returns its substituted text (leaf text is
preserved).  In the appendix variant an under-arity construct instead
contributes nothing at all — still without error. -/
theorem C1_math_rewriter :
    (∀ (x : Elem) (a : List (String × String)) (ftl : String),
        Ch06Full.convert_mathml_to_latex
            (.mk (mml "math") [] "" [.mk (mml "msub") a "" [x] ftl] "")
          = Ch06Full.convert_mathml_to_latex x ++ "_\x7b\x7d" ++ pyStrip ftl) ∧
    (∀ c : Elem,
        localName c.tag ∉ ["mi", "mn", "mo", "mtext", "mfrac", "msub", "msup",
          "mover", "msqrt", "mrow", "mtable"] →
        Ch06Full.convert_mathml_to_latex (.mk (mml "math") [] "" [c] "")
          = Ch06Full.convert_mathml_to_latex c ++ pyStrip c.tail) ∧
    (∀ (tag : String) (a : List (String × String)) (t tl : String),
        pyStrip t ≠ "" →
        Ch06Full.convert_mathml_to_latex (.mk tag a t [] tl)
          = applyReplacements Ch06Full.mathReplacements (pyStrip t)) ∧
    (∀ (x : Elem) (a : List (String × String)) (ftl : String),
        Appendices.convert_mathml_to_latex
            (.mk (mml "math") [] "" [.mk (mml "msub") a "" [x] ftl] "")
          = pyStrip ftl) := by
  refine ⟨fun x a ftl => ?_, fun c h => ?_, fun tag a t tl h => ?_, fun x a ftl => ?_⟩
  · simp +decide [Ch06Full.convert_mathml_to_latex, Ch06Full.convertLoop,
      Ch06Full.msubChunk, Elem.tag, Elem.text, Elem.tail,
      str_append_nil, str_append_assoc]
  · simp only [List.mem_cons, List.not_mem_nil, or_false, not_or] at h
    obtain ⟨h1, h2, h3, h4, h5, h6, h7, h8, h9, h10, h11⟩ := h
    simp +decide [Ch06Full.convert_mathml_to_latex, Ch06Full.convertLoop,
      h1, h2, h3, h4, h5, h6, h7, h8, h9, h10, h11,
      str_append_nil, str_append_assoc]
  · simp +decide [Ch06Full.convert_mathml_to_latex, Elem.tag, Elem.text, h,
      bne_iff_ne]
  · simp +decide [Appendices.convert_mathml_to_latex, Appendices.convertLoop,
      Appendices.msubChunk, Elem.tag, Elem.text, Elem.tail,
      str_append_nil, str_nil_append, str_append_assoc]

/-- C1 witness: the fallback and leaf parts applied at concrete inputs. -/
theorem C1_math_rewriter_witness :
    Ch06Full.convert_mathml_to_latex
        (.mk (mml "math") [] "" [.mk (mml "mglyph") [] "q" [] ""] "")
      = Ch06Full.convert_mathml_to_latex (.mk (mml "mglyph") [] "q" [] "") ++
          pyStrip (Elem.tail (.mk (mml "mglyph") [] "q" [] "")) ∧
    Ch06Full.convert_mathml_to_latex (.mk (mml "mphantom") [] " 7 " [] "")
      = applyReplacements Ch06Full.mathReplacements (pyStrip " 7 ") :=
  ⟨C1_math_rewriter.2.1 _ (by decide),
   C1_math_rewriter.2.2.1 _ _ _ _ (by decide)⟩

/-- C2 witness for the quantified fraction templates (no hypotheses are
needed, but we record a concrete instance for good measure via the
one-child ch06 case). -/
theorem C2_fraction_witness :
    Ch06Full.convert_mathml_to_latex
        (.mk (mml "math") [] ""
          [.mk (mml "mfrac") [] "" [.mk (mml "mn") [] "1" [] ""] ""] "")
      = "\\frac\x7b" ++
          Ch06Full.convert_mathml_to_latex (.mk (mml "mn") [] "1" [] "") ++
          "\x7d\x7b\x7d" ++ pyStrip "" :=
  C2_fraction.2.1 _ _ _

/-- C3: the claim says the sigma glyph rewrites to plain `\Sigma` in
every non-limit position; but an `mo` child `Σ` rewrites to `\sum`
through the ch11 operator table in every position. -/
theorem C3_counterexample :
    Ch11.convert_mathml_to_latex
        (.mk (mml "math") [] "" [.mk (mml "mo") [] "Σ" [] ""] "") = "\\sum" ∧
    Ch11.convert_mathml_to_latex
        (.mk (mml "math") [] "" [.mk (mml "mo") [] "Σ" [] ""] "") ≠ "\\Sigma" := by
  decide

/-- C3 (amended): in `munderover`/`munder` a base operand that rewrites
to `\Sigma` is emitted as `\sum`.  Outside the limit constructs the
position decides: a `Σ` identifier (`mi`) rewrites to plain `\Sigma`,
and a `Σ` operator (`mo`) consumed as a recursive operand of a construct
(here: alone, and as a fraction numerator) takes the leaf-text branch
and also renders `\Sigma`; but a `Σ` operator dispatched by the
conversion loop itself is mapped to `\sum` by the ch11 operator table,
so the original "plain Greek letter in any other position" fails
there. -/
theorem C3_sigma_rewriting :
    (∀ (b u o : Elem) (a : List (String × String)) (ftl : String),
        Ch11.convert_mathml_to_latex b = "\\Sigma" →
        Ch11.convert_mathml_to_latex
            (.mk (mml "math") [] "" [.mk (mml "munderover") a "" [b, u, o] ftl] "")
          = "\\sum_\x7b" ++ Ch11.convert_mathml_to_latex u ++ "\x7d^\x7b" ++
              Ch11.convert_mathml_to_latex o ++ "\x7d" ++ pyStrip ftl) ∧
    (∀ (b u : Elem) (a : List (String × String)) (ftl : String),
        Ch11.convert_mathml_to_latex b = "\\Sigma" →
        Ch11.convert_mathml_to_latex
            (.mk (mml "math") [] "" [.mk (mml "munder") a "" [b, u] ftl] "")
          = "\\sum_\x7b" ++ Ch11.convert_mathml_to_latex u ++ "\x7d" ++ pyStrip ftl) ∧
    (∀ (a : List (String × String)) (tl : String),
        Ch11.convert_mathml_to_latex
            (.mk (mml "math") [] "" [.mk (mml "mi") a "Σ" [] tl] "")
          = "\\Sigma" ++ pyStrip tl) ∧
    (∀ (a : List (String × String)) (tl : String),
        Ch11.convert_mathml_to_latex
            (.mk (mml "math") [] "" [.mk (mml "mo") a "Σ" [] tl] "")
          = "\\sum" ++ pyStrip tl) ∧
    Ch11.convert_mathml_to_latex (.mk (mml "mo") [] "Σ" [] "") = "\\Sigma" ∧
    Ch11.convert_mathml_to_latex
        (.mk (mml "math") [] ""
          [.mk (mml "mfrac") [] ""
            [.mk (mml "mo") [] "Σ" [] "", .mk (mml "mn") [] "2" [] ""] ""] "")
      = "\\frac\x7b\\Sigma\x7d\x7b2\x7d" := by
  refine ⟨fun b u o a ftl h => ?_, fun b u a ftl h => ?_, fun a tl => ?_, fun a tl => ?_,
    by decide, by decide⟩
  · simp +decide [Ch11.convert_mathml_to_latex, Ch11.convertLoop,
      Ch11.munderoverChunk, Ch11.sigmaBase, h,
      Elem.tag, Elem.text, Elem.tail, str_append_nil, str_append_assoc]
  · simp +decide [Ch11.convert_mathml_to_latex, Ch11.convertLoop,
      Ch11.munderChunk, Ch11.sigmaBase, h,
      Elem.tag, Elem.text, Elem.tail, str_append_nil, str_append_assoc]
  · have hval : lookupD Ch11.miGreek (pyStrip "Σ") = "\\Sigma" := by decide
    simp +decide [Ch11.convert_mathml_to_latex, Ch11.convertLoop, hval,
      Elem.tag, Elem.text, Elem.tail, str_append_nil, str_append_assoc]
  · have hval : lookupD Ch11.moOps (pyStrip "Σ") = "\\sum" := by decide
    simp +decide [Ch11.convert_mathml_to_latex, Ch11.convertLoop, hval,
      Elem.tag, Elem.text, Elem.tail, str_append_nil, str_append_assoc]

/-- C3 witness: a summation with limits whose base is the `Σ`
identifier. -/
theorem C3_sigma_rewriting_witness :
    Ch11.convert_mathml_to_latex
        (.mk (mml "math") [] ""
          [.mk (mml "munderover") [] ""
            [.mk (mml "mi") [] "Σ" [] "", .mk (mml "mn") [] "1" [] "",
             .mk (mml "mn") [] "9" [] ""] ""] "")
      = "\\sum_\x7b" ++
          Ch11.convert_mathml_to_latex (.mk (mml "mn") [] "1" [] "") ++ "\x7d^\x7b" ++
          Ch11.convert_mathml_to_latex (.mk (mml "mn") [] "9" [] "") ++ "\x7d" ++
          pyStrip "" :=
  C3_sigma_rewriting.1 _ _ _ _ _ (by decide)

/-- C4: the claim says the converter splits a paragraph around an
embedded table into three sibling blocks; the ch09 converter does, but
the ch06 converter has no such split and flattens the table's text into
a single paragraph, as this concrete input shows. -/
theorem C4_counterexample :
    Ch06Full.process_para
        (.mk (cnx "para") [] "See. " [.mk (cnx "table") [] "B" [] " Note."] "")
        CNXML_NS "    "
      = "    <p>See. B Note.</p>\n" ∧
    Ch09Full.process_para
        (.mk (cnx "para") [] "See. " [.mk (cnx "table") [] "B" [] " Note."] "")
        CNXML_NS "    "
      = "    <p>See.</p>\n    <table>\n    </table>\n    <p>Note.</p>\n" := by
  constructor
  · decide
  · decide

/-- C4 (amended): in the ch09 converter, a paragraph whose direct child
is a table, with nonblank leading text and nonblank tail text after the
table, is emitted as exactly three sibling blocks — leading paragraph,
rendered table, trailing paragraph; the ch06 converter instead flattens
such a paragraph into a single paragraph. -/
theorem C4_para_table_split :
    ∀ (lead : String) (t : Elem) (ptail : String)
      (ns : List (String × String)) (ind : String),
      t.tag = cnx "table" → pyStrip lead ≠ "" → pyStrip t.tail ≠ "" →
      Ch09Full.process_para (.mk (cnx "para") [] lead [t] ptail) ns ind
        = ind ++ "<p>" ++ pyStrip lead ++ "</p>\n"
          ++ Ch09Full.process_table t ns ind
          ++ ind ++ "<p>" ++ Ch09Full.xml_escape (pyStrip t.tail) ++ "</p>\n" := by
  intro lead t ptail ns ind htag hlead htail
  have hlead' : lead ≠ "" := by
    intro he; apply hlead; rw [he]; rfl
  have htail' : t.tail ≠ "" := by
    intro he; apply htail; rw [he]; rfl
  have hfind : findDesc (cnx "table") (Elem.mk (cnx "para") [] lead [t] ptail)
      = some t := by
    simp [findDesc, findallDesc, descendants, descList, htag, List.filter_cons]
  cases t with
  | mk ttag tattrs ttext tch ttl =>
      simp only [Elem.tail] at htail htail' ⊢
      simp +decide [Ch09Full.process_para, hfind, Ch09Full.beforeParts,
        beq_elem_self, joinAll, Elem.text, Elem.tail, hlead, hlead', htail, htail',
        bne_iff_ne, str_append_nil, str_append_assoc]

/-- C4 witness: the three-block split at a concrete paragraph. -/
theorem C4_para_table_split_witness :
    Ch09Full.process_para
        (.mk (cnx "para") [] "A" [.mk (cnx "table") [] "" [] " B"] "")
        CNXML_NS "  "
      = "  " ++ "<p>" ++ pyStrip "A" ++ "</p>\n"
        ++ Ch09Full.process_table (.mk (cnx "table") [] "" [] " B") CNXML_NS "  "
        ++ "  " ++ "<p>" ++
          Ch09Full.xml_escape (pyStrip (Elem.tail (.mk (cnx "table") [] "" [] " B"))) ++
          "</p>\n" :=
  C4_para_table_split "A" _ "" CNXML_NS "  " (by decide) (by decide) (by decide)

/-- C5: a paragraph whose rendered inline content is empty after
trimming is suppressed entirely, in both the ch06 and ch11 converters. -/
theorem C5_empty_paragraph :
    (∀ (para : Elem) (ns : List (String × String)) (ind : String),
        pyStrip (Ch06Full.extract_text para ns) = "" →
        Ch06Full.process_para para ns ind = "") ∧
    (∀ (para : Elem) (ns : List (String × String)) (ind : String),
        pyStrip (Ch11.extract_text para ns) = "" →
        Ch11.process_para para ns ind = "") := by
  constructor
  · intro para ns ind h
    simp [Ch06Full.process_para, h]
  · intro para ns ind h
    simp [Ch11.process_para, h]

/-- C5 witness: an empty paragraph at a concrete input. -/
theorem C5_empty_paragraph_witness :
    Ch06Full.process_para (.mk (cnx "para") [] "  " [] "") CNXML_NS "    " = "" ∧
    Ch11.process_para (.mk (cnx "para") [] "  " [] "") CNXML_NS "    " = "" :=
  ⟨C5_empty_paragraph.1 _ _ _ (by decide), C5_empty_paragraph.2 _ _ _ (by decide)⟩

/-- C6: a tag outside the structural dispatch is silently dropped by the
ch06 `process_element` (empty string, no error), while a tag outside the
appendix Inline Renderer's dispatch falls back to that node's flattened,
trimmed, escaped descendant text. -/
theorem C6_unknown_vocabulary :
    (∀ (e : Elem) (ns : List (String × String)) (ind : String),
        localName e.tag ∉ ["para", "list", "equation", "figure", "example",
          "note", "exercise", "title"] →
        Ch06Full.process_element e ns ind = "") ∧
    (∀ (c : Elem) (ns : List (String × String)),
        localName c.tag ∉ ["emphasis", "link", "math", "sub", "sup", "code",
          "term", "quote", "foreign", "newline", "space", "list", "media",
          "image"] →
        pyStrip (itertext c) ≠ "" → c.tail = "" →
        Appendices.process_mixed_content (.mk (cnx "para") [] "" [c] "") ns true
          = Appendices.escape_xml (pyStrip (itertext c))) := by
  constructor
  · intro e ns ind h
    simp only [List.mem_cons, List.not_mem_nil, or_false, not_or] at h
    obtain ⟨h1, h2, h3, h4, h5, h6, h7, h8⟩ := h
    simp +decide [Ch06Full.process_element, h1, h2, h3, h4, h5, h6, h7, h8]
  · intro c ns h hne htail
    simp only [List.mem_cons, List.not_mem_nil, or_false, not_or] at h
    obtain ⟨h1, h2, h3, h4, h5, h6, h7, h8, h9, h10, h11, h12, h13, h14⟩ := h
    cases c with
    | mk ctag cattrs ctext cch ctl =>
        simp only [Elem.tag] at h1 h2 h3 h4 h5 h6 h7 h8 h9 h10 h11 h12 h13 h14
        simp only [Elem.tail] at htail
        subst htail
        simp +decide [Appendices.process_mixed_content, Appendices.mcLoop,
          h1, h2, h3, h4, h5, h6, h7, h8, h9, h10, h11, h12, h13, h14,
          hne, bne_iff_ne, strJoinSep, Elem.tag, Elem.text, Elem.tail,
          Elem.children]

/-- C6 witness: a concrete unknown tag in each position. -/
theorem C6_unknown_vocabulary_witness :
    Ch06Full.process_element (.mk (cnx "weird") [] "x" [] "") CNXML_NS "  " = "" ∧
    Appendices.process_mixed_content
        (.mk (cnx "para") [] "" [.mk (cnx "weird") [] "hello" [] ""] "")
        CNXML_NS true
      = Appendices.escape_xml (pyStrip (itertext (.mk (cnx "weird") [] "hello" [] ""))) :=
  ⟨C6_unknown_vocabulary.1 _ _ _ (by decide),
   C6_unknown_vocabulary.2 _ _ (by decide) (by decide) (by decide)⟩

/-- C7: a module whose parsed tree has no `content` element converts to
the empty result instead of failing, in both the ch06 and ch11
converters, so other units are unaffected. -/
theorem C7_missing_content :
    (∀ (root : Elem) (section_id section_title : String),
        findDesc (cnx "content") root = none →
        Ch06Full.convert_module root section_id section_title = "") ∧
    (∀ (root : Elem) (section_id section_title : String),
        findDesc (cnx "content") root = none →
        Ch11.convert_module root section_id section_title = "") := by
  constructor
  · intro root sid st h
    simp [Ch06Full.convert_module, h]
  · intro root sid st h
    simp [Ch11.convert_module, h]

/-- C7 witness: a concrete document with no content root. -/
theorem C7_missing_content_witness :
    Ch06Full.convert_module (.mk (cnx "document") [] "" [] "") "secid" "T" = "" ∧
    Ch11.convert_module (.mk (cnx "document") [] "" [] "") "secid" "T" = "" :=
  ⟨C7_missing_content.1 _ _ _ rfl, C7_missing_content.2 _ _ _ rfl⟩

/-- C9: an italics emphasis span whose trimmed rendered content is a
single character, or a member of the fixed variable-name list, is
wrapped in a math-variable tag `<m>` rather than a prose `<em>` by both
inline renderers (the ch06-full renderer, whose threshold is in fact
`≤ 2` characters, and the ch06 renderer, whose threshold is exactly
one character — both cover the claimed single-character case). -/
theorem C9_variable_heuristic :
    (∀ (c : Elem) (ns : List (String × String)),
        localName c.tag = "emphasis" →
        c.get "effect" "" = "italics" →
        c.tail = "" →
        ((pyStrip (Ch06Full.extract_text c ns)).length = 1 ∨
          Ch06Full.varNames.contains (pyStrip (Ch06Full.extract_text c ns)) = true) →
        Ch06Full.extract_text (.mk (cnx "para") [] "" [c] "") ns
          = "<m>" ++ Ch06Full.extract_text c ns ++ "</m>") ∧
    (∀ (c : Elem) (ns : List (String × String)),
        Ch06.ch06Tag c.tag = "emphasis" →
        c.get "effect" "" = "italics" →
        c.tail = "" →
        ((pyStrip (Ch06.extract_text_with_math c ns)).length = 1 ∨
          Ch06.varNames.contains (pyStrip (Ch06.extract_text_with_math c ns)) = true) →
        Ch06.extract_text_with_math (.mk (cnx "para") [] "" [c] "") ns
          = "<m>" ++ Ch06.extract_text_with_math c ns ++ "</m>") := by
  constructor
  · intro c ns htag heff htail hvar
    cases c with
    | mk ctag cattrs ctext cch ctl =>
      simp only [Elem.tag] at htag
      simp only [Elem.tail] at htail
      subst htail
      have hstep : Ch06Full.extract_text
          (Elem.mk (cnx "para") [] "" [Elem.mk ctag cattrs ctext cch ""] "") ns
          = Ch06Full.extractLoop [Elem.mk ctag cattrs ctext cch ""] ns := by
        simp +decide [Ch06Full.extract_text, str_nil_append]
      rw [hstep]
      simp +decide [Ch06Full.extractLoop, htag, heff, Elem.tag, Elem.tail,
        str_append_nil]
      intro h2 h3
      rcases hvar with h1 | h1
      · exact absurd h1 (by omega)
      · simp at h1
        exact absurd h1 h3
  · intro c ns htag heff htail hvar
    cases c with
    | mk ctag cattrs ctext cch ctl =>
      simp only [Elem.tag] at htag
      simp only [Elem.tail] at htail
      subst htail
      have hstep : Ch06.extract_text_with_math
          (Elem.mk (cnx "para") [] "" [Elem.mk ctag cattrs ctext cch ""] "") ns
          = Ch06.etLoop [Elem.mk ctag cattrs ctext cch ""] ns := by
        simp +decide [Ch06.extract_text_with_math, str_nil_append]
      rw [hstep]
      simp +decide [Ch06.etLoop, htag, heff, Elem.tag, Elem.tail,
        str_append_nil]
      intro h2 h3
      rcases hvar with h1 | h1
      · exact absurd h1 h2
      · simp at h1
        exact absurd h1 h3

/-- C9 witness: a one-character italics span rendered by each inline
renderer. -/
theorem C9_variable_heuristic_witness :
    Ch06Full.extract_text
        (.mk (cnx "para") [] ""
          [.mk (cnx "emphasis") [("effect", "italics")] "x" [] ""] "") CNXML_NS
      = "<m>" ++ Ch06Full.extract_text
          (.mk (cnx "emphasis") [("effect", "italics")] "x" [] "") CNXML_NS ++ "</m>" ∧
    Ch06.extract_text_with_math
        (.mk (cnx "para") [] ""
          [.mk (cnx "emphasis") [("effect", "italics")] "x" [] ""] "") CNXML_NS
      = "<m>" ++ Ch06.extract_text_with_math
          (.mk (cnx "emphasis") [("effect", "italics")] "x" [] "") CNXML_NS ++ "</m>" :=
  ⟨C9_variable_heuristic.1 _ _ (by decide) (by decide) (by decide) (Or.inl (by decide)),
   C9_variable_heuristic.2 _ _ (by decide) (by decide) (by decide) (Or.inl (by decide))⟩

/-- C10: the list emitters gather items with a recursive descendant
search (`findall('.//item')`), so an item of a nested inner list is
rendered twice — flattened inside its ancestor item's `<li>` text and
again as its own sibling `<li>` — shown for the ch06-full and ch11
emitters; and a list with no item descendants still emits the
opening/closing wrapper tags (it is not suppressed). -/
theorem C10_list_descendant_items :
    (∀ (ta tb : String) (ns : List (String × String)) (ind : String),
        Ch06Full.process_list
            (.mk (cnx "list") [] ""
              [.mk (cnx "item") [] ta
                [.mk (cnx "list") [] "" [.mk (cnx "item") [] tb [] ""] ""] ""] "")
            ns ind
          = ind ++ "<" ++ "ul" ++ ">\n"
            ++ ind ++ "  <li>"
              ++ pyStrip (Ch06Full.xml_escape ta ++ Ch06Full.xml_escape tb) ++ "</li>\n"
            ++ ind ++ "  <li>" ++ pyStrip (Ch06Full.xml_escape tb) ++ "</li>\n"
            ++ ind ++ "</" ++ "ul" ++ ">\n") ∧
    (∀ (e : Elem) (ns : List (String × String)) (ind : String),
        findallDesc (cnx "item") e = [] →
        e.get "list-type" "bulleted" = "bulleted" →
        Ch06Full.process_list e ns ind
          = ind ++ "<" ++ "ul" ++ ">\n" ++ ind ++ "</" ++ "ul" ++ ">\n") ∧
    (∀ (ta tb : String) (ns : List (String × String)) (ind : String),
        Ch11.process_list
            (.mk (cnx "list") [] ""
              [.mk (cnx "item") [] ta
                [.mk (cnx "list") [] "" [.mk (cnx "item") [] tb [] ""] ""] ""] "")
            ns ind
          = ind ++ "<" ++ "ul" ++ ">\n"
            ++ ind ++ "  <li>"
              ++ pyStrip (Ch11.xml_escape ta ++ Ch11.xml_escape tb) ++ "</li>\n"
            ++ ind ++ "  <li>" ++ pyStrip (Ch11.xml_escape tb) ++ "</li>\n"
            ++ ind ++ "</" ++ "ul" ++ ">\n") := by
  refine ⟨fun ta tb ns ind => ?_, fun e ns ind hempty hlt => ?_, fun ta tb ns ind => ?_⟩
  · simp +decide [Ch06Full.process_list, Ch06Full.listItemLines,
      Ch06Full.extract_text, Ch06Full.extractLoop, findallDesc, descendants,
      descList, Elem.tag, Elem.tail, Elem.get, Elem.attrs, List.lookup,
      ite_xml_escape, ite_xml_escape_flip, str_append_nil, str_nil_append,
      str_append_assoc]
  · simp +decide [Ch06Full.process_list, Ch06Full.listItemLines, hempty, hlt,
      str_append_nil, str_append_assoc]
  · simp +decide [Ch11.process_list, Ch11.listItemLines, Ch11.extract_text,
      Ch11.extractLoop, Ch11.xml_escape, findallDesc, descendants, descList,
      Elem.tag, Elem.tail, Elem.get, Elem.attrs, List.lookup, ite_xml_escape,
      ite_xml_escape_flip, str_append_nil, str_nil_append, str_append_assoc]

/-- C10 witness: the empty-list wrapper at a concrete itemless list. -/
theorem C10_list_descendant_items_witness :
    Ch06Full.process_list (.mk (cnx "list") [] "" [] "") CNXML_NS "  "
      = "  " ++ "<" ++ "ul" ++ ">\n" ++ "  " ++ "</" ++ "ul" ++ ">\n" :=
  C10_list_descendant_items.2.1 _ _ _ rfl rfl
